import Mathlib

/-!
Shallow embedding of `tools/build_atlases.py` (deterministic atlas builder).

Conventions of the embedding:
* Python/JSON values are modelled by `PyVal` (integers, strings, null, lists,
  objects).  JSON floats and booleans do not occur in any behaviour the claims
  exercise and are left out of the value universe.
* Python exceptions are modelled by `PyErr`; `raise` becomes `Except.error`.
* Python `dict.get(k)` (default `None`) becomes `dGet`; an absent key and an
  explicit `null` value are both `PyVal.none`, exactly as in Python.
* Machine integers are unbounded in Python, so they are plain `Int`.
* The image codec, the resampling filter and the filesystem are external
  collaborators: images are total pixel maps, folders are association lists,
  and the resampling primitive is a parameter of the compositor.
-/

/-- Python/JSON values as far as the builder inspects them. -/
inductive PyVal where
  | int (n : Int)
  | str (s : String)
  | none
  | list (xs : List PyVal)
  | dict (entries : List (String × PyVal))

/-- A Python dict, keyed by strings. -/
abbrev PyDict := List (String × PyVal)

/-- Python exceptions raised (directly or by builtins) in the builder. -/
inductive PyErr where
  | valueError (msg : String)
  | runtimeError (msg : String)
  | keyError (key : String)
  | typeError (msg : String)
  | attrError (msg : String)
deriving DecidableEq, Repr

/-- `d.get(k)`: value of the first binding of `k`, `None` when absent. -/
def dGet (d : PyDict) (k : String) : PyVal :=
  match d with
  | [] => PyVal.none
  | (k', v) :: rest => if k' = k then v else dGet rest k

/-- `k in d` membership test on a Python dict. -/
def dHas (d : PyDict) (k : String) : Bool :=
  match d with
  | [] => false
  | (k', _) :: rest => k' = k || dHas rest k

/-- `d.get(k, dflt)`: first binding of `k`, or the default when absent. -/
def dGetD (d : PyDict) (k : String) (dflt : PyVal) : PyVal :=
  if dHas d k then dGet d k else dflt

/-- `d[k]`: subscript access, raising `KeyError` when absent. -/
def dSub (d : PyDict) (k : String) : Except PyErr PyVal :=
  if dHas d k then .ok (dGet d k) else .error (.keyError k)

/-- Digit rendering worker, structurally recursive on a fuel bound so that it
reduces in the kernel.  `fuel > n` always suffices. -/
def natDigitsAux (fuel : Nat) (n : Nat) : List Char :=
  match fuel with
  | 0 => []
  | fuel + 1 =>
      if n < 10 then [Char.ofNat (48 + n)]
      else natDigitsAux fuel (n / 10) ++ [Char.ofNat (48 + n % 10)]

/-- Digits of a natural number, most significant first (Python `str` on a
natural number). -/
def natDigits (n : Nat) : List Char := natDigitsAux (n + 1) n

/-- Python `str(i)` on an integer. -/
def intStr (i : Int) : String :=
  if i < 0 then "-" ++ String.mk (natDigits (-i).toNat)
  else String.mk (natDigits i.toNat)

/-- Python truthiness of a value (`bool(v)`), as used by the `or` operator. -/
def pyTruthy (v : PyVal) : Bool :=
  match v with
  | .int n => n != 0
  | .str s => s ≠ ""
  | .none => false
  | .list xs => !xs.isEmpty
  | .dict d => !d.isEmpty

/-- Python `a or b`. -/
def pyOr (a b : PyVal) : PyVal := if pyTruthy a then a else b

/-- Python `int(v)`: identity on integers, parse for strings (the usual
decimal forms), `ValueError` on a malformed string, `TypeError` otherwise. -/
def pyInt (v : PyVal) : Except PyErr Int :=
  match v with
  | .int n => .ok n
  | .str s =>
      match s.toInt? with
      | some n => .ok n
      | Option.none =>
          .error (.valueError ("invalid literal for int() with base 10: '" ++ s ++ "'"))
  | .none => .error (.typeError "int() argument must not be None")
  | .list _ => .error (.typeError "int() argument must not be a list")
  | .dict _ => .error (.typeError "int() argument must not be a dict")

-- --- Constants / limits ------------------------------------------------------

def MAX_CANVAS : Int := 2048
def DEFAULT_CANVAS : Int := 2048
def DEFAULT_SLOT : Int := 512
def DEFAULT_COLS : Int := 4
def DEFAULT_ROWS : Int := 4

-- --- Filename safety ---------------------------------------------------------

/-- Python substring test `pat in l` on character lists. -/
def strOccurs (pat : List Char) : List Char → Bool
  | [] => pat.isEmpty
  | c :: t => List.isPrefixOf pat (c :: t) || strOccurs pat t

/-- `is_safe_filename` from the source: reject non-strings, the empty string,
absolute paths, traversal (`..`) and any path separator. -/
def is_safe_filename (name : PyVal) : Bool :=
  match name with
  | .str s =>
      if s.toList.isEmpty then false
      else if List.isPrefixOf "/".toList s.toList
              || List.isPrefixOf "\\".toList s.toList then false
      else if strOccurs "..".toList s.toList then false
      else if s.toList.contains '/' || s.toList.contains '\\' then false
      else true
  | _ => false

/-- Python `str(v)` on a value, as interpolated into error messages.  Only the
integer and string cases are ever reached by the builder's messages; the
container cases are schematic. -/
def pyStrV (v : PyVal) : String :=
  match v with
  | .int n => intStr n
  | .str s => s
  | .none => "None"
  | .list _ => "[...]"
  | .dict _ => "{...}"

-- --- Validation --------------------------------------------------------------

def msgCanvasInt : String := "canvas_width and canvas_height must be integers."
def msgCanvasPos : String := "canvas dimensions must be positive."
def msgCanvasMax : String := "canvas dimensions must be <= 2048."
def msgSlotsList : String := "slots must be a non-empty list after config processing."
def msgSlotDict : String := "each slot entry must be an object/dict."
def msgIndex : String := "slot 'index' must be integer >= 1."
def msgDup (i : Int) : String := "duplicate slot index detected: " ++ intStr i
def msgProp (i : Int) (name : String) : String :=
  "slot " ++ intStr i ++ " property '" ++ name ++ "' must be integer."
def msgPosWH (i : Int) : String := "slot " ++ intStr i ++ " must have positive width/height."
def msgBounds (i x y w h cw ch : Int) : String :=
  "slot " ++ intStr i ++ " bounds exceed canvas: x=" ++ intStr x ++ ",y=" ++ intStr y ++
  ",w=" ++ intStr w ++ ",h=" ++ intStr h ++ ", canvas=" ++ intStr cw ++ "x" ++ intStr ch
def msgUnsafe (i : Int) (fv : PyVal) : String :=
  "slot " ++ intStr i ++ " filename is unsafe: '" ++ pyStrV fv ++ "'"

/-- One iteration of the slot loop in `validate_slots`: all per-slot checks in
source order.  `seen` is the set of already-seen indices; on success the slot's
index is returned (to be added to `seen`). -/
def checkSlot (cw ch : Int) (seen : List Int) (s : PyVal) : Except PyErr Int :=
  match s with
  | .dict d =>
      match dGet d "index" with
      | .int i =>
          if i < 1 then .error (.valueError msgIndex)
          else if seen.contains i then .error (.valueError (msgDup i))
          else
            match dGet d "x" with
            | .int x =>
                match dGet d "y" with
                | .int y =>
                    match dGet d "w" with
                    | .int w =>
                        match dGet d "h" with
                        | .int h =>
                            if w ≤ 0 || h ≤ 0 then .error (.valueError (msgPosWH i))
                            else if x < 0 || y < 0 || x + w > cw || y + h > ch then
                              .error (.valueError (msgBounds i x y w h cw ch))
                            else
                              match dGet d "filename" with
                              | .none => .ok i
                              | fv =>
                                  if is_safe_filename fv then .ok i
                                  else .error (.valueError (msgUnsafe i fv))
                        | _ => .error (.valueError (msgProp i "h"))
                    | _ => .error (.valueError (msgProp i "w"))
                | _ => .error (.valueError (msgProp i "y"))
            | _ => .error (.valueError (msgProp i "x"))
      | _ => .error (.valueError msgIndex)
  | _ => .error (.valueError msgSlotDict)

/-- The `for s in slots` loop of `validate_slots`. -/
def validateSlotsLoop (cw ch : Int) (seen : List Int) : List PyVal → Except PyErr Unit
  | [] => .ok ()
  | s :: rest =>
      match checkSlot cw ch seen s with
      | .error e => .error e
      | .ok i => validateSlotsLoop cw ch (i :: seen) rest

/-- `validate_slots` from the source: canvas type / positivity / ceiling, then
non-emptiness of `slots`, then the per-slot loop. -/
def validate_slots (cfg : PyDict) : Except PyErr Unit :=
  match dGet cfg "canvas_width", dGet cfg "canvas_height" with
  | .int cw, .int ch =>
      if cw ≤ 0 || ch ≤ 0 then .error (.valueError msgCanvasPos)
      else if cw > MAX_CANVAS || ch > MAX_CANVAS then .error (.valueError msgCanvasMax)
      else
        match dGet cfg "slots" with
        | .list ss =>
            if ss.isEmpty then .error (.valueError msgSlotsList)
            else validateSlotsLoop cw ch [] ss
        | _ => .error (.valueError msgSlotsList)
  | _, _ => .error (.valueError msgCanvasInt)

-- --- Claim-side declarative acceptance predicate -----------------------------

/-- Index of a slot value (junk `0` when the slot is not a dict with an
integer index). -/
def slotIdx (s : PyVal) : Int :=
  match s with
  | .dict d => match dGet d "index" with | .int i => i | _ => 0
  | _ => 0

/-- Declarative per-slot well-formedness, following the spec's words: the slot
is an object whose `index,x,y,w,h` are integers, `index ≥ 1`, `w,h` positive,
the rectangle is contained in the canvas, and a present filename is safe. -/
def slotOkB (cw ch : Int) (s : PyVal) : Bool :=
  match s with
  | .dict d =>
      (match dGet d "index" with | .int i => decide (1 ≤ i) | _ => false) &&
      (match dGet d "x", dGet d "y", dGet d "w", dGet d "h" with
       | .int x, .int y, .int w, .int h =>
           decide (0 < w) && decide (0 < h) && decide (0 ≤ x) && decide (0 ≤ y) &&
           decide (x + w ≤ cw) && decide (y + h ≤ ch)
       | _, _, _, _ => false) &&
      (match dGet d "filename" with | .none => true | fv => is_safe_filename fv)
  | _ => false

/-- No duplicates in a list of integers. -/
def listNodup : List Int → Bool
  | [] => true
  | a :: l => !l.contains a && listNodup l

/-- Declarative acceptance condition of the validator, following the spec's
words (canvas integral, positive, at most 2048; slots a non-empty list; every
slot well-formed; indices pairwise distinct). -/
def specValidB (cfg : PyDict) : Bool :=
  match dGet cfg "canvas_width", dGet cfg "canvas_height", dGet cfg "slots" with
  | .int cw, .int ch, .list ss =>
      decide (0 < cw) && decide (cw ≤ 2048) && decide (0 < ch) && decide (ch ≤ 2048) &&
      !ss.isEmpty && ss.all (slotOkB cw ch) && listNodup (ss.map slotIdx)
  | _, _, _ => false

example : is_safe_filename (.str "../x.png") = false := by decide
example : is_safe_filename (.str "/etc/passwd") = false := by decide
example : is_safe_filename (.str "a/b.png") = false := by decide
example : is_safe_filename (.str "a\\b.png") = false := by decide
example : is_safe_filename (.str "") = false := by decide
example : is_safe_filename (.str "tile 01.png") = true := by decide
example : is_safe_filename (.str "1.png") = true := by decide
example : is_safe_filename PyVal.none = false := by decide

-- --- Validator characterization ----------------------------------------------

lemma checkSlot_eq_ok_iff (cw ch : Int) (seen : List Int) (s : PyVal) (i : Int) :
    checkSlot cw ch seen s = .ok i ↔
      slotOkB cw ch s = true ∧ slotIdx s = i ∧ seen.contains i = false := by
  constructor
  · intro hok
    unfold checkSlot at hok
    repeat' split at hok
    all_goals simp_all [slotOkB, slotIdx]
  · rintro ⟨hok, hi, hseen⟩
    unfold slotOkB at hok
    unfold checkSlot slotIdx at *
    repeat' split at hok
    all_goals simp_all
    all_goals split_ifs <;> first | rfl | omega

lemma listNodup_iff (l : List Int) : listNodup l = true ↔ l.Nodup := by
  induction l with
  | nil => simp [listNodup]
  | cons a l ih => simp [listNodup, ih]

lemma validateSlotsLoop_ok_iff (cw ch : Int) (ss : List PyVal) :
    ∀ seen : List Int,
      validateSlotsLoop cw ch seen ss = .ok () ↔
        ((∀ s ∈ ss, slotOkB cw ch s = true) ∧ (ss.map slotIdx).Nodup ∧
         ∀ j ∈ ss.map slotIdx, j ∉ seen) := by
  induction ss with
  | nil => intro seen; simp [validateSlotsLoop]
  | cons s rest ih =>
      intro seen
      unfold validateSlotsLoop
      cases hck : checkSlot cw ch seen s with
      | error e =>
          simp only [hck]
          constructor
          · intro h; exact absurd h (by simp)
          · rintro ⟨hall, hnd, hfr⟩
            exfalso
            have h1 : slotOkB cw ch s = true := hall s (by simp)
            have h2 : slotIdx s ∉ seen := hfr (slotIdx s) (by simp)
            have h3 := (checkSlot_eq_ok_iff cw ch seen s (slotIdx s)).2
              ⟨h1, rfl, by simpa using h2⟩
            rw [hck] at h3; cases h3
      | ok i =>
          simp only [hck]
          obtain ⟨hsok, hidx, hfresh⟩ := (checkSlot_eq_ok_iff cw ch seen s i).1 hck
          rw [ih (i :: seen)]
          have hfresh' : i ∉ seen := by simpa using hfresh
          constructor
          · rintro ⟨hall, hnd, hfr⟩
            refine ⟨?_, ?_, ?_⟩
            · intro t ht
              rcases List.mem_cons.1 ht with rfl | ht'
              · exact hsok
              · exact hall t ht'
            · rw [List.map_cons, List.nodup_cons]
              refine ⟨?_, hnd⟩
              intro hmem
              have := hfr (slotIdx s) hmem
              rw [hidx] at this
              exact this (List.mem_cons_self i seen)
            · intro j hj
              rw [List.map_cons] at hj
              rcases List.mem_cons.1 hj with rfl | hj'
              · rw [hidx]; exact hfresh'
              · exact fun hs => hfr j hj' (List.mem_cons_of_mem i hs)
          · rintro ⟨hall, hnd, hfr⟩
            rw [List.map_cons, List.nodup_cons] at hnd
            refine ⟨fun t ht => hall t (List.mem_cons_of_mem s ht), hnd.2, ?_⟩
            intro j hj
            intro hmem
            rcases List.mem_cons.1 hmem with rfl | hs
            · exact hnd.1 (hidx ▸ hj)
            · exact hfr j (by rw [List.map_cons]; exact List.mem_cons_of_mem _ hj) hs

lemma validate_slots_ok_iff (cfg : PyDict) :
    validate_slots cfg = .ok () ↔ specValidB cfg = true := by
  unfold validate_slots specValidB
  cases hcw : dGet cfg "canvas_width" with
  | int cw =>
      cases hchh : dGet cfg "canvas_height" with
      | int ch =>
          cases hss : dGet cfg "slots" with
          | list ss =>
              dsimp only
              by_cases h1 : cw ≤ 0 ∨ ch ≤ 0
              · rw [if_pos (by simpa using h1)]
                constructor
                · intro h; exact absurd h (by simp)
                · intro h; exfalso; simp at h; omega
              · rw [if_neg (by simpa using h1)]
                by_cases h2 : cw > MAX_CANVAS ∨ ch > MAX_CANVAS
                · rw [if_pos (by simpa using h2)]
                  constructor
                  · intro h; exact absurd h (by simp)
                  · intro h; exfalso; simp at h
                    simp [MAX_CANVAS] at h2
                    omega
                · rw [if_neg (by simpa using h2)]
                  by_cases h3 : ss.isEmpty
                  · rw [if_pos h3]
                    constructor
                    · intro h; exact absurd h (by simp)
                    · intro h; exfalso; simp at h h3
                      exact h.1.1.2 h3
                  · rw [if_neg h3]
                    rw [validateSlotsLoop_ok_iff]
                    simp only [List.not_mem_nil, not_false_iff, implies_true, and_true,
                      Bool.and_eq_true, decide_eq_true_eq, List.all_eq_true, listNodup_iff]
                    simp only [MAX_CANVAS] at h1 h2
                    push_neg at h1 h2
                    simp at h3
                    constructor
                    · rintro ⟨ha, hb⟩
                      exact ⟨⟨⟨⟨⟨⟨h1.1, h2.1⟩, h1.2⟩, h2.2⟩, by simpa using h3⟩, ha⟩, hb⟩
                    · rintro ⟨⟨_, ha⟩, hb⟩
                      exact ⟨ha, hb⟩
          | int n => simp; split_ifs <;> simp
          | str t => simp; split_ifs <;> simp
          | none => simp; split_ifs <;> simp
          | dict d => simp; split_ifs <;> simp
      | str t => simp
      | none => simp
      | list l => simp
      | dict d => simp
  | str t => simp
  | none => simp
  | list l => simp
  | dict d => simp

-- --- Concrete configurations exercising each validator clause ----------------

/-- A well-formed one-slot test slot. -/
def slotA : PyVal :=
  .dict [("index", .int 1), ("x", .int 0), ("y", .int 0),
         ("w", .int 10), ("h", .int 10), ("filename", .str "a.png")]

/-- A well-formed one-slot test config. -/
def cfgOk : PyDict :=
  [("canvas_width", .int 100), ("canvas_height", .int 80), ("slots", .list [slotA])]

def cfgWithSlots (ss : List PyVal) : PyDict :=
  [("canvas_width", .int 100), ("canvas_height", .int 80), ("slots", .list ss)]

example : validate_slots cfgOk = .ok () := by rfl
example : validate_slots [("canvas_width", .str "x"), ("canvas_height", .int 80),
    ("slots", .list [slotA])] = .error (.valueError msgCanvasInt) := by rfl
example : validate_slots [("canvas_width", .int 0), ("canvas_height", .int 80),
    ("slots", .list [slotA])] = .error (.valueError msgCanvasPos) := by rfl
example : validate_slots [("canvas_width", .int 4096), ("canvas_height", .int 80),
    ("slots", .list [slotA])] = .error (.valueError msgCanvasMax) := by rfl
example : validate_slots (cfgWithSlots []) = .error (.valueError msgSlotsList) := by rfl
example : validate_slots (cfgWithSlots [.dict [("index", .int 0), ("x", .int 0), ("y", .int 0),
    ("w", .int 10), ("h", .int 10)]]) = .error (.valueError msgIndex) := by rfl
example : validate_slots (cfgWithSlots [slotA, .dict [("index", .int 1), ("x", .int 20),
    ("y", .int 0), ("w", .int 10), ("h", .int 10)]]) = .error (.valueError (msgDup 1)) := by rfl
example : validate_slots (cfgWithSlots [.dict [("index", .int 1), ("x", .str "bad"),
    ("y", .int 0), ("w", .int 10), ("h", .int 10)]]) = .error (.valueError (msgProp 1 "x")) := by rfl
example : validate_slots (cfgWithSlots [.dict [("index", .int 1), ("x", .int 0), ("y", .int 0),
    ("w", .int 0), ("h", .int 10)]]) = .error (.valueError (msgPosWH 1)) := by rfl
example : validate_slots (cfgWithSlots [.dict [("index", .int 1), ("x", .int 95), ("y", .int 0),
    ("w", .int 10), ("h", .int 10)]]) =
    .error (.valueError (msgBounds 1 95 0 10 10 100 80)) := by rfl
example : validate_slots (cfgWithSlots [.dict [("index", .int 1), ("x", .int 0), ("y", .int 0),
    ("w", .int 10), ("h", .int 10), ("filename", .str "../x")]]) =
    .error (.valueError (msgUnsafe 1 (.str "../x"))) := by rfl

/-- C1: `validate_slots` accepts a config exactly when the canvas dimensions
are integers, strictly positive and at most 2048, the slot collection is a
non-empty list, every slot is an object with integer `index,x,y,w,h`,
`index ≥ 1`, pairwise distinct indices, positive `w,h`, rectangle contained in
the canvas, and every present filename passing `is_safe_filename`; and each
listed single-clause violation is rejected with the message naming exactly
that clause. -/
theorem c1_validator_accepts_iff :
    (∀ cfg : PyDict, validate_slots cfg = .ok () ↔ specValidB cfg = true) ∧
    validate_slots cfgOk = .ok () ∧
    validate_slots [("canvas_width", .str "x"), ("canvas_height", .int 80),
      ("slots", .list [slotA])] = .error (.valueError msgCanvasInt) ∧
    validate_slots [("canvas_width", .int 0), ("canvas_height", .int 80),
      ("slots", .list [slotA])] = .error (.valueError msgCanvasPos) ∧
    validate_slots [("canvas_width", .int 4096), ("canvas_height", .int 80),
      ("slots", .list [slotA])] = .error (.valueError msgCanvasMax) ∧
    validate_slots (cfgWithSlots []) = .error (.valueError msgSlotsList) ∧
    validate_slots (cfgWithSlots [.dict [("index", .int 0), ("x", .int 0), ("y", .int 0),
      ("w", .int 10), ("h", .int 10)]]) = .error (.valueError msgIndex) ∧
    validate_slots (cfgWithSlots [slotA, .dict [("index", .int 1), ("x", .int 20),
      ("y", .int 0), ("w", .int 10), ("h", .int 10)]]) = .error (.valueError (msgDup 1)) ∧
    validate_slots (cfgWithSlots [.dict [("index", .int 1), ("x", .str "bad"), ("y", .int 0),
      ("w", .int 10), ("h", .int 10)]]) = .error (.valueError (msgProp 1 "x")) ∧
    validate_slots (cfgWithSlots [.dict [("index", .int 1), ("x", .int 0), ("y", .int 0),
      ("w", .int 0), ("h", .int 10)]]) = .error (.valueError (msgPosWH 1)) ∧
    validate_slots (cfgWithSlots [.dict [("index", .int 1), ("x", .int 95), ("y", .int 0),
      ("w", .int 10), ("h", .int 10)]]) =
      .error (.valueError (msgBounds 1 95 0 10 10 100 80)) ∧
    validate_slots (cfgWithSlots [.dict [("index", .int 1), ("x", .int 0), ("y", .int 0),
      ("w", .int 10), ("h", .int 10), ("filename", .str "../x")]]) =
      .error (.valueError (msgUnsafe 1 (.str "../x"))) :=
  ⟨validate_slots_ok_iff, rfl, rfl, rfl, rfl, rfl, rfl, rfl, rfl, rfl, rfl, rfl⟩

/-- C7 counterexample: for a slot with `index = 0` and a non-integer `x`, the
claim's listed order ("all of index,x,y,w,h are integers" before "index ≥ 1")
predicts a failure reason naming the x-integer clause, but the validator
reports the index clause: the combined `index`-integer-and-`≥1` check runs
before any of the `x,y,w,h` integer checks. -/
theorem c7_order_counterexample :
    validate_slots (cfgWithSlots [.dict [("index", .int 0), ("x", .str "bad"), ("y", .int 0),
      ("w", .int 1), ("h", .int 1)]]) = .error (.valueError msgIndex) ∧
    validate_slots (cfgWithSlots [slotA, .dict [("index", .int 1), ("x", .str "bad"),
      ("y", .int 0), ("w", .int 1), ("h", .int 1)]]) = .error (.valueError (msgDup 1)) ∧
    msgIndex ≠ msgProp 0 "x" ∧ msgDup 1 ≠ msgProp 1 "x" :=
  ⟨rfl, rfl, by decide, by decide⟩

-- --- First-failure characterization of the validator -------------------------

lemma validate_slots_canvas_nonInt (cfg : PyDict)
    (h : (∀ j, dGet cfg "canvas_width" ≠ .int j) ∨ (∀ j, dGet cfg "canvas_height" ≠ .int j)) :
    validate_slots cfg = .error (.valueError msgCanvasInt) := by
  unfold validate_slots
  cases hcw : dGet cfg "canvas_width" with
  | int cw =>
      cases hch : dGet cfg "canvas_height" with
      | int ch =>
          rcases h with h | h
          · exact absurd hcw (h cw)
          · exact absurd hch (h ch)
      | str t => rfl
      | none => rfl
      | list l => rfl
      | dict d => rfl
  | str t => rfl
  | none => rfl
  | list l => rfl
  | dict d => rfl

lemma validate_slots_canvas_nonpos (cfg : PyDict) (cw ch : Int)
    (hcw : dGet cfg "canvas_width" = .int cw) (hch : dGet cfg "canvas_height" = .int ch)
    (h : cw ≤ 0 ∨ ch ≤ 0) :
    validate_slots cfg = .error (.valueError msgCanvasPos) := by
  unfold validate_slots
  rw [hcw, hch]
  dsimp only
  rw [if_pos (by simpa using h)]

lemma validate_slots_canvas_ceiling (cfg : PyDict) (cw ch : Int)
    (hcw : dGet cfg "canvas_width" = .int cw) (hch : dGet cfg "canvas_height" = .int ch)
    (h1 : 0 < cw) (h2 : 0 < ch) (h : cw > MAX_CANVAS ∨ ch > MAX_CANVAS) :
    validate_slots cfg = .error (.valueError msgCanvasMax) := by
  unfold validate_slots
  rw [hcw, hch]
  dsimp only
  rw [if_neg (by simp; omega), if_pos (by simpa using h)]

lemma validate_slots_bad_slots (cfg : PyDict) (cw ch : Int)
    (hcw : dGet cfg "canvas_width" = .int cw) (hch : dGet cfg "canvas_height" = .int ch)
    (h1 : 0 < cw) (h2 : cw ≤ MAX_CANVAS) (h3 : 0 < ch) (h4 : ch ≤ MAX_CANVAS)
    (h : (∀ l, dGet cfg "slots" ≠ .list l) ∨ dGet cfg "slots" = .list []) :
    validate_slots cfg = .error (.valueError msgSlotsList) := by
  unfold validate_slots
  rw [hcw, hch]
  dsimp only
  rw [if_neg (by simp; omega), if_neg (by simp; omega)]
  cases hss : dGet cfg "slots" with
  | list l =>
      rcases h with h | h
      · exact absurd hss (h l)
      · rw [hss] at h
        cases h
        rfl
  | int n => rfl
  | str t => rfl
  | none => rfl
  | dict d => rfl

lemma validate_slots_runs_loop (cfg : PyDict) (cw ch : Int) (ss : List PyVal)
    (hcw : dGet cfg "canvas_width" = .int cw) (hch : dGet cfg "canvas_height" = .int ch)
    (h1 : 0 < cw) (h2 : cw ≤ MAX_CANVAS) (h3 : 0 < ch) (h4 : ch ≤ MAX_CANVAS)
    (hss : dGet cfg "slots" = .list ss) (hne : ss ≠ []) :
    validate_slots cfg = validateSlotsLoop cw ch [] ss := by
  unfold validate_slots
  rw [hcw, hch]
  dsimp only
  rw [if_neg (by simp; omega), if_neg (by simp; omega)]
  rw [hss]
  dsimp only
  rw [if_neg (by simpa using hne)]

lemma validateSlotsLoop_cons_error (cw ch : Int) (seen : List Int) (s : PyVal)
    (rest : List PyVal) (e : PyErr) (h : checkSlot cw ch seen s = .error e) :
    validateSlotsLoop cw ch seen (s :: rest) = .error e := by
  unfold validateSlotsLoop
  rw [h]

lemma checkSlot_nondict (cw ch : Int) (seen : List Int) (v : PyVal)
    (h : ∀ d, v ≠ .dict d) :
    checkSlot cw ch seen v = .error (.valueError msgSlotDict) := by
  cases v with
  | dict d => exact absurd rfl (h d)
  | int n => rfl
  | str t => rfl
  | none => rfl
  | list l => rfl

lemma checkSlot_index_nonint (cw ch : Int) (seen : List Int) (d : PyDict)
    (h : ∀ j, dGet d "index" ≠ .int j) :
    checkSlot cw ch seen (.dict d) = .error (.valueError msgIndex) := by
  unfold checkSlot
  dsimp only
  cases hidx : dGet d "index" with
  | int j => exact absurd hidx (h j)
  | str t => rfl
  | none => rfl
  | list l => rfl
  | dict dd => rfl

lemma checkSlot_index_low (cw ch : Int) (seen : List Int) (d : PyDict) (i : Int)
    (hidx : dGet d "index" = .int i) (h : i < 1) :
    checkSlot cw ch seen (.dict d) = .error (.valueError msgIndex) := by
  unfold checkSlot
  dsimp only
  rw [hidx]
  dsimp only
  rw [if_pos h]

lemma checkSlot_dup (cw ch : Int) (seen : List Int) (d : PyDict) (i : Int)
    (hidx : dGet d "index" = .int i) (h1 : 1 ≤ i) (h : seen.contains i = true) :
    checkSlot cw ch seen (.dict d) = .error (.valueError (msgDup i)) := by
  unfold checkSlot
  dsimp only
  rw [hidx]
  dsimp only
  rw [if_neg (by omega), if_pos h]

lemma checkSlot_x_nonint (cw ch : Int) (seen : List Int) (d : PyDict) (i : Int)
    (hidx : dGet d "index" = .int i) (h1 : 1 ≤ i) (hfresh : seen.contains i = false)
    (hx : ∀ j, dGet d "x" ≠ .int j) :
    checkSlot cw ch seen (.dict d) = .error (.valueError (msgProp i "x")) := by
  unfold checkSlot
  dsimp only
  rw [hidx]
  dsimp only
  rw [if_neg (by omega), if_neg (by simpa using hfresh)]
  cases hxv : dGet d "x" with
  | int j => exact absurd hxv (hx j)
  | str t => rfl
  | none => rfl
  | list l => rfl
  | dict dd => rfl

lemma checkSlot_y_nonint (cw ch : Int) (seen : List Int) (d : PyDict) (i x : Int)
    (hidx : dGet d "index" = .int i) (h1 : 1 ≤ i) (hfresh : seen.contains i = false)
    (hx : dGet d "x" = .int x) (hy : ∀ j, dGet d "y" ≠ .int j) :
    checkSlot cw ch seen (.dict d) = .error (.valueError (msgProp i "y")) := by
  unfold checkSlot
  dsimp only
  rw [hidx]
  dsimp only
  rw [if_neg (by omega), if_neg (by simpa using hfresh)]
  rw [hx]
  dsimp only
  cases hyv : dGet d "y" with
  | int j => exact absurd hyv (hy j)
  | str t => rfl
  | none => rfl
  | list l => rfl
  | dict dd => rfl

lemma checkSlot_w_nonint (cw ch : Int) (seen : List Int) (d : PyDict) (i x y : Int)
    (hidx : dGet d "index" = .int i) (h1 : 1 ≤ i) (hfresh : seen.contains i = false)
    (hx : dGet d "x" = .int x) (hy : dGet d "y" = .int y)
    (hw : ∀ j, dGet d "w" ≠ .int j) :
    checkSlot cw ch seen (.dict d) = .error (.valueError (msgProp i "w")) := by
  unfold checkSlot
  dsimp only
  rw [hidx]
  dsimp only
  rw [if_neg (by omega), if_neg (by simpa using hfresh)]
  rw [hx, hy]
  dsimp only
  cases hwv : dGet d "w" with
  | int j => exact absurd hwv (hw j)
  | str t => rfl
  | none => rfl
  | list l => rfl
  | dict dd => rfl

lemma checkSlot_h_nonint (cw ch : Int) (seen : List Int) (d : PyDict) (i x y w : Int)
    (hidx : dGet d "index" = .int i) (h1 : 1 ≤ i) (hfresh : seen.contains i = false)
    (hx : dGet d "x" = .int x) (hy : dGet d "y" = .int y) (hw : dGet d "w" = .int w)
    (hh : ∀ j, dGet d "h" ≠ .int j) :
    checkSlot cw ch seen (.dict d) = .error (.valueError (msgProp i "h")) := by
  unfold checkSlot
  dsimp only
  rw [hidx]
  dsimp only
  rw [if_neg (by omega), if_neg (by simpa using hfresh)]
  rw [hx, hy, hw]
  dsimp only
  cases hhv : dGet d "h" with
  | int j => exact absurd hhv (hh j)
  | str t => rfl
  | none => rfl
  | list l => rfl
  | dict dd => rfl

lemma checkSlot_nonpos_wh (cw ch : Int) (seen : List Int) (d : PyDict) (i x y w h : Int)
    (hidx : dGet d "index" = .int i) (h1 : 1 ≤ i) (hfresh : seen.contains i = false)
    (hx : dGet d "x" = .int x) (hy : dGet d "y" = .int y) (hw : dGet d "w" = .int w)
    (hh : dGet d "h" = .int h) (hwh : w ≤ 0 ∨ h ≤ 0) :
    checkSlot cw ch seen (.dict d) = .error (.valueError (msgPosWH i)) := by
  unfold checkSlot
  dsimp only
  rw [hidx]
  dsimp only
  rw [if_neg (by omega), if_neg (by simpa using hfresh)]
  rw [hx, hy, hw, hh]
  dsimp only
  rw [if_pos (by simp; omega)]

lemma checkSlot_bounds (cw ch : Int) (seen : List Int) (d : PyDict) (i x y w h : Int)
    (hidx : dGet d "index" = .int i) (h1 : 1 ≤ i) (hfresh : seen.contains i = false)
    (hx : dGet d "x" = .int x) (hy : dGet d "y" = .int y) (hw : dGet d "w" = .int w)
    (hh : dGet d "h" = .int h) (hwpos : 0 < w) (hhpos : 0 < h)
    (hb : x < 0 ∨ y < 0 ∨ x + w > cw ∨ y + h > ch) :
    checkSlot cw ch seen (.dict d) = .error (.valueError (msgBounds i x y w h cw ch)) := by
  unfold checkSlot
  dsimp only
  rw [hidx]
  dsimp only
  rw [if_neg (by omega), if_neg (by simpa using hfresh)]
  rw [hx, hy, hw, hh]
  dsimp only
  rw [if_neg (by simp; omega), if_pos (by simp; omega)]

lemma checkSlot_unsafe_filename (cw ch : Int) (seen : List Int) (d : PyDict)
    (i x y w h : Int)
    (hidx : dGet d "index" = .int i) (h1 : 1 ≤ i) (hfresh : seen.contains i = false)
    (hx : dGet d "x" = .int x) (hy : dGet d "y" = .int y) (hw : dGet d "w" = .int w)
    (hh : dGet d "h" = .int h) (hwpos : 0 < w) (hhpos : 0 < h)
    (hxpos : 0 ≤ x) (hypos : 0 ≤ y) (hxw : x + w ≤ cw) (hyh : y + h ≤ ch)
    (fv : PyVal) (hfv : dGet d "filename" = fv) (hne : fv ≠ .none)
    (hbadname : is_safe_filename fv = false) :
    checkSlot cw ch seen (.dict d) = .error (.valueError (msgUnsafe i fv)) := by
  unfold checkSlot
  dsimp only
  rw [hidx]
  dsimp only
  rw [if_neg (by omega), if_neg (by simpa using hfresh)]
  rw [hx, hy, hw, hh]
  dsimp only
  rw [if_neg (by simp; omega), if_neg (by simp; omega)]
  rw [hfv]
  cases fv with
  | none => exact absurd rfl hne
  | int n => dsimp only; rw [if_neg (by simp [hbadname])]
  | str t => dsimp only; rw [if_neg (by simp [hbadname])]
  | list l => dsimp only; rw [if_neg (by simp [hbadname])]
  | dict dd => dsimp only; rw [if_neg (by simp [hbadname])]

/-- C7 (amended): the validator reports the first failing check in the actual
source order: canvas type, canvas positivity, canvas ceiling, slot collection
a non-empty list, then per slot in list order: entry is an object; `index`
integer-and-`≥ 1` (a single combined check); `index` not previously seen;
`x`, `y`, `w`, `h` integers in that order; `w,h` positive; bounds containment;
filename safety.  In particular the `index ≥ 1` and duplicate checks run
before the `x,y,w,h` integer checks, unlike the claimed order. -/
theorem c7_first_failure_order :
    (∀ cfg : PyDict,
        ((∀ j, dGet cfg "canvas_width" ≠ .int j) ∨ (∀ j, dGet cfg "canvas_height" ≠ .int j)) →
        validate_slots cfg = .error (.valueError msgCanvasInt)) ∧
    (∀ (cfg : PyDict) (cw ch : Int), dGet cfg "canvas_width" = .int cw →
        dGet cfg "canvas_height" = .int ch → cw ≤ 0 ∨ ch ≤ 0 →
        validate_slots cfg = .error (.valueError msgCanvasPos)) ∧
    (∀ (cfg : PyDict) (cw ch : Int), dGet cfg "canvas_width" = .int cw →
        dGet cfg "canvas_height" = .int ch → 0 < cw → 0 < ch →
        cw > MAX_CANVAS ∨ ch > MAX_CANVAS →
        validate_slots cfg = .error (.valueError msgCanvasMax)) ∧
    (∀ (cfg : PyDict) (cw ch : Int), dGet cfg "canvas_width" = .int cw →
        dGet cfg "canvas_height" = .int ch → 0 < cw → cw ≤ MAX_CANVAS → 0 < ch →
        ch ≤ MAX_CANVAS →
        ((∀ l, dGet cfg "slots" ≠ .list l) ∨ dGet cfg "slots" = .list []) →
        validate_slots cfg = .error (.valueError msgSlotsList)) ∧
    (∀ (cfg : PyDict) (cw ch : Int) (ss : List PyVal), dGet cfg "canvas_width" = .int cw →
        dGet cfg "canvas_height" = .int ch → 0 < cw → cw ≤ MAX_CANVAS → 0 < ch →
        ch ≤ MAX_CANVAS → dGet cfg "slots" = .list ss → ss ≠ [] →
        validate_slots cfg = validateSlotsLoop cw ch [] ss) ∧
    (∀ (cw ch : Int) (seen : List Int) (s : PyVal) (rest : List PyVal) (e : PyErr),
        checkSlot cw ch seen s = .error e →
        validateSlotsLoop cw ch seen (s :: rest) = .error e) ∧
    (∀ (cw ch : Int) (seen : List Int) (v : PyVal), (∀ d, v ≠ .dict d) →
        checkSlot cw ch seen v = .error (.valueError msgSlotDict)) ∧
    (∀ (cw ch : Int) (seen : List Int) (d : PyDict), (∀ j, dGet d "index" ≠ .int j) →
        checkSlot cw ch seen (.dict d) = .error (.valueError msgIndex)) ∧
    (∀ (cw ch : Int) (seen : List Int) (d : PyDict) (i : Int), dGet d "index" = .int i →
        i < 1 → checkSlot cw ch seen (.dict d) = .error (.valueError msgIndex)) ∧
    (∀ (cw ch : Int) (seen : List Int) (d : PyDict) (i : Int), dGet d "index" = .int i →
        1 ≤ i → seen.contains i = true →
        checkSlot cw ch seen (.dict d) = .error (.valueError (msgDup i))) ∧
    (∀ (cw ch : Int) (seen : List Int) (d : PyDict) (i : Int), dGet d "index" = .int i →
        1 ≤ i → seen.contains i = false → (∀ j, dGet d "x" ≠ .int j) →
        checkSlot cw ch seen (.dict d) = .error (.valueError (msgProp i "x"))) ∧
    (∀ (cw ch : Int) (seen : List Int) (d : PyDict) (i x : Int), dGet d "index" = .int i →
        1 ≤ i → seen.contains i = false → dGet d "x" = .int x →
        (∀ j, dGet d "y" ≠ .int j) →
        checkSlot cw ch seen (.dict d) = .error (.valueError (msgProp i "y"))) ∧
    (∀ (cw ch : Int) (seen : List Int) (d : PyDict) (i x y : Int), dGet d "index" = .int i →
        1 ≤ i → seen.contains i = false → dGet d "x" = .int x → dGet d "y" = .int y →
        (∀ j, dGet d "w" ≠ .int j) →
        checkSlot cw ch seen (.dict d) = .error (.valueError (msgProp i "w"))) ∧
    (∀ (cw ch : Int) (seen : List Int) (d : PyDict) (i x y w : Int), dGet d "index" = .int i →
        1 ≤ i → seen.contains i = false → dGet d "x" = .int x → dGet d "y" = .int y →
        dGet d "w" = .int w → (∀ j, dGet d "h" ≠ .int j) →
        checkSlot cw ch seen (.dict d) = .error (.valueError (msgProp i "h"))) ∧
    (∀ (cw ch : Int) (seen : List Int) (d : PyDict) (i x y w h : Int),
        dGet d "index" = .int i → 1 ≤ i → seen.contains i = false → dGet d "x" = .int x →
        dGet d "y" = .int y → dGet d "w" = .int w → dGet d "h" = .int h → w ≤ 0 ∨ h ≤ 0 →
        checkSlot cw ch seen (.dict d) = .error (.valueError (msgPosWH i))) ∧
    (∀ (cw ch : Int) (seen : List Int) (d : PyDict) (i x y w h : Int),
        dGet d "index" = .int i → 1 ≤ i → seen.contains i = false → dGet d "x" = .int x →
        dGet d "y" = .int y → dGet d "w" = .int w → dGet d "h" = .int h → 0 < w → 0 < h →
        x < 0 ∨ y < 0 ∨ x + w > cw ∨ y + h > ch →
        checkSlot cw ch seen (.dict d) = .error (.valueError (msgBounds i x y w h cw ch))) ∧
    (∀ (cw ch : Int) (seen : List Int) (d : PyDict) (i x y w h : Int),
        dGet d "index" = .int i → 1 ≤ i → seen.contains i = false → dGet d "x" = .int x →
        dGet d "y" = .int y → dGet d "w" = .int w → dGet d "h" = .int h → 0 < w → 0 < h →
        0 ≤ x → 0 ≤ y → x + w ≤ cw → y + h ≤ ch →
        ∀ fv : PyVal, dGet d "filename" = fv → fv ≠ .none → is_safe_filename fv = false →
        checkSlot cw ch seen (.dict d) = .error (.valueError (msgUnsafe i fv))) :=
  ⟨validate_slots_canvas_nonInt, validate_slots_canvas_nonpos, validate_slots_canvas_ceiling,
   validate_slots_bad_slots, validate_slots_runs_loop, validateSlotsLoop_cons_error,
   checkSlot_nondict, checkSlot_index_nonint, checkSlot_index_low, checkSlot_dup,
   checkSlot_x_nonint, checkSlot_y_nonint, checkSlot_w_nonint, checkSlot_h_nonint,
   checkSlot_nonpos_wh, checkSlot_bounds, checkSlot_unsafe_filename⟩

/-- Witness for C7's amended order theorem: a slot whose `index` is `0` is
rejected with the index message by the combined index check. -/
theorem c7_first_failure_order_witness :
    checkSlot 100 80 [] (.dict [("index", .int 0), ("x", .str "bad")]) =
      .error (.valueError msgIndex) :=
  c7_first_failure_order.2.2.2.2.2.2.2.2.1
    100 80 [] [("index", .int 0), ("x", .str "bad")] 0 (by rfl) (by decide)

-- --- Filename safety characterization ----------------------------------------

lemma isPrefixOf_iff_exists {α : Type} [DecidableEq α] (p : List α) :
    ∀ l : List α, List.isPrefixOf p l = true ↔ ∃ t, l = p ++ t := by
  induction p with
  | nil => intro l; simp [List.isPrefixOf]
  | cons a p ih =>
      intro l
      cases l with
      | nil =>
          refine iff_of_false (fun h => Bool.false_ne_true h) ?_
          rintro ⟨t, ht⟩
          exact List.noConfusion ht
      | cons b t =>
          simp only [List.isPrefixOf_cons₂, Bool.and_eq_true, beq_iff_eq, ih, List.cons_append,
            List.cons.injEq]
          constructor
          · rintro ⟨rfl, u, rfl⟩; exact ⟨u, rfl, rfl⟩
          · rintro ⟨u, rfl, rfl⟩; exact ⟨rfl, u, rfl⟩

lemma singleton_isPrefixOf_iff (c : Char) (l : List Char) :
    List.isPrefixOf [c] l = true ↔ l.head? = some c := by
  cases l with
  | nil => exact iff_of_false (fun h => Bool.false_ne_true h) (fun h => Option.noConfusion h)
  | cons b t =>
      rw [List.isPrefixOf_cons₂]
      simp
      exact eq_comm

lemma strOccurs_iff (pat : List Char) :
    ∀ l : List Char, strOccurs pat l = true ↔ ∃ pre suf, l = pre ++ pat ++ suf := by
  intro l
  induction l with
  | nil =>
      simp only [strOccurs, List.isEmpty_iff]
      constructor
      · rintro rfl; exact ⟨[], [], rfl⟩
      · rintro ⟨pre, suf, h⟩
        rcases List.append_eq_nil.1 (List.append_eq_nil.1 h.symm).1 with ⟨-, h2⟩
        exact h2
  | cons c t ih =>
      simp only [strOccurs, Bool.or_eq_true, isPrefixOf_iff_exists, ih]
      constructor
      · rintro (⟨u, hu⟩ | ⟨pre, suf, h⟩)
        · exact ⟨[], u, by simpa using hu⟩
        · exact ⟨c :: pre, suf, by simp [h]⟩
      · rintro ⟨pre, suf, h⟩
        cases pre with
        | nil => exact Or.inl ⟨suf, by simpa using h⟩
        | cons d pre' =>
            right
            simp only [List.cons_append] at h
            injection h with h1 h2
            exact ⟨pre', suf, h2⟩

lemma is_safe_str_false_iff (s : String) :
    is_safe_filename (.str s) = false ↔
      (s = "" ∨ s.toList.head? = some '/' ∨ s.toList.head? = some '\\' ∨
       (∃ pre suf, s.toList = pre ++ "..".toList ++ suf) ∨
       '/' ∈ s.toList ∨ '\\' ∈ s.toList) := by
  have hempty : s.toList.isEmpty = true ↔ s = "" := by
    rw [List.isEmpty_iff]
    constructor
    · intro h; exact String.ext h
    · intro h; rw [h]; rfl
  have hsl : "/".toList = ['/'] := rfl
  have hbs : "\\".toList = ['\\'] := rfl
  unfold is_safe_filename
  dsimp only
  split_ifs with h1 h2 h3 h4
  · exact iff_of_true rfl (Or.inl (hempty.1 h1))
  · refine iff_of_true rfl ?_
    simp only [Bool.or_eq_true] at h2
    rcases h2 with h | h
    · exact Or.inr (Or.inl ((singleton_isPrefixOf_iff '/' s.toList).1 (hsl ▸ h)))
    · exact Or.inr (Or.inr (Or.inl ((singleton_isPrefixOf_iff '\\' s.toList).1 (hbs ▸ h))))
  · exact iff_of_true rfl
      (Or.inr (Or.inr (Or.inr (Or.inl ((strOccurs_iff "..".toList s.toList).1 h3)))))
  · refine iff_of_true rfl ?_
    simp only [Bool.or_eq_true] at h4
    rcases h4 with h | h
    · exact Or.inr (Or.inr (Or.inr (Or.inr (Or.inl (by simpa using h)))))
    · exact Or.inr (Or.inr (Or.inr (Or.inr (Or.inr (by simpa using h)))))
  · refine iff_of_false (by simp) ?_
    rintro (h | h | h | h | h | h)
    · exact h1 (hempty.2 h)
    · exact h2 (by
        rw [Bool.or_eq_true]
        exact Or.inl (hsl ▸ (singleton_isPrefixOf_iff '/' s.toList).2 h))
    · exact h2 (by
        rw [Bool.or_eq_true]
        exact Or.inr (hbs ▸ (singleton_isPrefixOf_iff '\\' s.toList).2 h))
    · exact h3 ((strOccurs_iff "..".toList s.toList).2 h)
    · exact h4 (by rw [Bool.or_eq_true]; exact Or.inl (by simpa using h))
    · exact h4 (by rw [Bool.or_eq_true]; exact Or.inr (by simpa using h))

/-- C3: `is_safe_filename` returns `False` exactly for non-string input, the
empty string, names whose first character is `/` or `\`, names containing the
substring `..`, and names containing `/` or `\` anywhere; it returns `True`
for every other string.  The listed examples behave as claimed. -/
theorem c3_is_safe_filename_spec :
    (∀ n : Int, is_safe_filename (.int n) = false) ∧
    is_safe_filename PyVal.none = false ∧
    (∀ xs, is_safe_filename (.list xs) = false) ∧
    (∀ d, is_safe_filename (.dict d) = false) ∧
    (∀ s : String, is_safe_filename (.str s) = false ↔
      (s = "" ∨ s.toList.head? = some '/' ∨ s.toList.head? = some '\\' ∨
       (∃ pre suf, s.toList = pre ++ "..".toList ++ suf) ∨
       '/' ∈ s.toList ∨ '\\' ∈ s.toList)) ∧
    is_safe_filename (.str "../x.png") = false ∧
    is_safe_filename (.str "/etc/passwd") = false ∧
    is_safe_filename (.str "a/b.png") = false ∧
    is_safe_filename (.str "a\\b.png") = false ∧
    is_safe_filename (.str "") = false ∧
    is_safe_filename (.str "tile 01.png") = true ∧
    is_safe_filename (.str "1.png") = true :=
  ⟨fun _ => rfl, rfl, fun _ => rfl, fun _ => rfl, is_safe_str_false_iff,
   by decide, by decide, by decide, by decide, by decide, by decide, by decide⟩

-- --- Config loading -----------------------------------------------------------

/-- The three states of `config.json` in a folder: missing, present but not
parseable as JSON, or parsed to a JSON value. -/
inductive ConfigDoc where
  | absent
  | unparsable (err : String)
  | parsed (raw : PyVal)

/-- `generate_grid_slots` from the source: row-major grid of `rows × cols`
slots with default filenames. -/
def generate_grid_slots (cols rows slot_w slot_h : Int) : List PyVal :=
  (List.range (rows * cols).toNat).map (fun i0 =>
    let i : Int := i0
    PyVal.dict [("index", .int (i + 1)), ("x", .int (Int.fmod i cols * slot_w)),
                ("y", .int (Int.fdiv i cols * slot_h)), ("w", .int slot_w),
                ("h", .int slot_h), ("filename", .str (intStr (i + 1) ++ ".png"))])

/-- `int(d[k])`: Python subscript (KeyError when absent) followed by `int()`
coercion. -/
def dSubInt (d : PyDict) (k : String) : Except PyErr Int :=
  if dHas d k then pyInt (dGet d k) else .error (.keyError k)

/-- Normalization of one explicit-mode slot entry, mirroring the dict literal
in `load_config`: `index` coerced when present (else `None`), `x,y,w,h`
subscripted and coerced (in that evaluation order), `filename` passed through
as-is. -/
def normalizeSlot (s : PyVal) : Except PyErr PyVal :=
  match s with
  | .dict d =>
      match (if dHas d "index" then Except.map PyVal.int (pyInt (dGet d "index"))
             else .ok PyVal.none) with
      | .error e => .error e
      | .ok idxv =>
          match dSubInt d "x" with
          | .error e => .error e
          | .ok x =>
              match dSubInt d "y" with
              | .error e => .error e
              | .ok y =>
                  match dSubInt d "w" with
                  | .error e => .error e
                  | .ok w =>
                      match dSubInt d "h" with
                      | .error e => .error e
                      | .ok h =>
                          .ok (.dict [("index", idxv), ("x", .int x), ("y", .int y),
                                      ("w", .int w), ("h", .int h),
                                      ("filename", dGet d "filename")])
  | _ => .error (.typeError "slot entry does not support string subscripts")

/-- The normalization loop over `raw["slots"]`, failing on the first bad
entry. -/
def normalizeSlots : List PyVal → Except PyErr (List PyVal)
  | [] => .ok []
  | s :: rest =>
      match normalizeSlot s with
      | .error e => .error e
      | .ok v =>
          match normalizeSlots rest with
          | .error e => .error e
          | .ok vs => .ok (v :: vs)

/-- `raw.get(k, dflt)` on an arbitrary value: `AttributeError` when the parsed
document is not an object. -/
def rawGet (raw : PyVal) (k : String) (dflt : PyVal) : Except PyErr PyVal :=
  match raw with
  | .dict rd => .ok (dGetD rd k dflt)
  | _ => .error (.attrError "object has no attribute 'get'")

/-- Explicit mode of `load_config`: normalize every slot entry, coerce the
canvas dimensions, validate, return the canonical dict. -/
def loadExplicit (rd : PyDict) (sl : List PyVal) : Except PyErr PyDict :=
  match normalizeSlots sl with
  | .error e => .error e
  | .ok normalized =>
      match pyInt (dGetD rd "canvas_width" (.int DEFAULT_CANVAS)) with
      | .error e => .error e
      | .ok cw =>
          match pyInt (dGetD rd "canvas_height" (.int DEFAULT_CANVAS)) with
          | .error e => .error e
          | .ok ch =>
              let cfg : PyDict := [("canvas_width", .int cw), ("canvas_height", .int ch),
                                   ("slots", .list normalized)]
              match validate_slots cfg with
              | .error e => .error e
              | .ok _ => .ok cfg

/-- Grid mode of `load_config`: read grid parameters with defaults, pre-check
the generated canvas against `MAX_CANVAS`, generate, validate. -/
def loadGrid (raw : PyVal) : Except PyErr PyDict :=
  match rawGet raw "cols" (.int DEFAULT_COLS) with
  | .error e => .error e
  | .ok colsV =>
      match pyInt colsV with
      | .error e => .error e
      | .ok cols =>
          match rawGet raw "rows" (.int DEFAULT_ROWS) with
          | .error e => .error e
          | .ok rowsV =>
              match pyInt rowsV with
              | .error e => .error e
              | .ok rows =>
                  match rawGet raw "slot_width" (.int DEFAULT_SLOT) with
                  | .error e => .error e
                  | .ok swV =>
                      match pyInt swV with
                      | .error e => .error e
                      | .ok slot_w =>
                          match rawGet raw "slot_height" (.int DEFAULT_SLOT) with
                          | .error e => .error e
                          | .ok shV =>
                              match pyInt shV with
                              | .error e => .error e
                              | .ok slot_h =>
                                  loadGridCanvas raw cols rows slot_w slot_h
where
  loadGridCanvas (raw : PyVal) (cols rows slot_w slot_h : Int) : Except PyErr PyDict :=
    match rawGet raw "canvas_width" (.int (cols * slot_w)) with
    | .error e => .error e
    | .ok cwV =>
        match pyInt cwV with
        | .error e => .error e
        | .ok canvas_w =>
            match rawGet raw "canvas_height" (.int (rows * slot_h)) with
            | .error e => .error e
            | .ok chV =>
                match pyInt chV with
                | .error e => .error e
                | .ok canvas_h =>
                    if canvas_w > MAX_CANVAS || canvas_h > MAX_CANVAS then
                      .error (.valueError ("generated canvas (" ++ intStr canvas_w ++ "x" ++
                        intStr canvas_h ++ ") exceeds MAX_CANVAS 2048."))
                    else
                      let slots := generate_grid_slots cols rows slot_w slot_h
                      let cfg : PyDict := [("canvas_width", .int canvas_w),
                                           ("canvas_height", .int canvas_h),
                                           ("slots", .list slots)]
                      match validate_slots cfg with
                      | .error e => .error e
                      | .ok _ => .ok cfg

/-- `load_config` from the source: default grid when no document is present,
parse-failure error, explicit mode when a list-typed `slots` field exists,
grid mode otherwise. -/
def load_config (doc : ConfigDoc) : Except PyErr PyDict :=
  match doc with
  | .absent =>
      .ok [("canvas_width", .int DEFAULT_CANVAS), ("canvas_height", .int DEFAULT_CANVAS),
           ("slots", .list (generate_grid_slots DEFAULT_COLS DEFAULT_ROWS DEFAULT_SLOT
             DEFAULT_SLOT))]
  | .unparsable e => .error (.valueError ("failed to parse config.json: " ++ e))
  | .parsed raw =>
      match raw with
      | .dict rd =>
          if dHas rd "slots" then
            match dGet rd "slots" with
            | .list sl => loadExplicit rd sl
            | _ => loadGrid raw
          else loadGrid raw
      | _ => loadGrid raw

/-- Literal expected slot of the default 4×4 grid. -/
def gridSlotLit (idx x y : Int) (fn : String) : PyVal :=
  .dict [("index", .int idx), ("x", .int x), ("y", .int y), ("w", .int 512),
         ("h", .int 512), ("filename", .str fn)]

/-- C5: with no config document, normalization yields the default grid:
canvas 2048×2048 and exactly sixteen 512×512 slots, indices 1–16, filenames
"1.png"… "16.png", laid out row-major (slot 1 at (0,0), slot 5 at (0,512),
slot 16 at (1536,1536)). -/
theorem c5_default_grid_config : load_config ConfigDoc.absent = .ok
    [("canvas_width", .int 2048), ("canvas_height", .int 2048),
     ("slots", .list
       [gridSlotLit 1 0 0 "1.png", gridSlotLit 2 512 0 "2.png",
        gridSlotLit 3 1024 0 "3.png", gridSlotLit 4 1536 0 "4.png",
        gridSlotLit 5 0 512 "5.png", gridSlotLit 6 512 512 "6.png",
        gridSlotLit 7 1024 512 "7.png", gridSlotLit 8 1536 512 "8.png",
        gridSlotLit 9 0 1024 "9.png", gridSlotLit 10 512 1024 "10.png",
        gridSlotLit 11 1024 1024 "11.png", gridSlotLit 12 1536 1024 "12.png",
        gridSlotLit 13 0 1536 "13.png", gridSlotLit 14 512 1536 "14.png",
        gridSlotLit 15 1024 1536 "15.png", gridSlotLit 16 1536 1536 "16.png"])] := by rfl

-- --- Error classification in main --------------------------------------------

/-- Which `except` clause of `main` reports an exception: `ValueError` is
reported as a config validation error, `RuntimeError` as a runtime error, and
everything else as an unexpected error. -/
inductive ErrClass where
  | config
  | runtime
  | unexpected
deriving DecidableEq, Repr

def classifyErr (e : PyErr) : ErrClass :=
  match e with
  | .valueError _ => .config
  | .runtimeError _ => .runtime
  | _ => .unexpected

-- --- Normalizer behaviour on bad slot entries --------------------------------

lemma dGet_of_dHas_false (d : PyDict) (k : String) (h : dHas d k = false) :
    dGet d k = .none := by
  induction d with
  | nil => rfl
  | cons p rest ih =>
      obtain ⟨k', v⟩ := p
      unfold dHas at h
      unfold dGet
      simp only [Bool.or_eq_false_iff] at h
      rw [if_neg (by simpa using h.1)]
      exact ih h.2

lemma dHas_of_dGet_int (d : PyDict) (k : String) (n : Int) (h : dGet d k = .int n) :
    dHas d k = true := by
  by_contra hc
  rw [dGet_of_dHas_false d k (by simpa using hc)] at h
  cases h

/-- The index part of `normalizeSlot` succeeds when the key is absent (giving
`None`) or holds an integer. -/
lemma normalizeSlot_idx_ok (d : PyDict)
    (hidx : dHas d "index" = false ∨ ∃ n, dGet d "index" = .int n) :
    (if dHas d "index" then Except.map PyVal.int (pyInt (dGet d "index"))
     else .ok PyVal.none) =
      .ok (if dHas d "index" then dGet d "index" else PyVal.none) := by
  rcases hidx with h | ⟨n, h⟩
  · rw [if_neg (by simpa using h), if_neg (by simpa using h)]
  · rw [if_pos (dHas_of_dGet_int d "index" n h), if_pos (dHas_of_dGet_int d "index" n h), h]
    rfl

lemma normalizeSlot_missing_x (d : PyDict)
    (hidx : dHas d "index" = false ∨ ∃ n, dGet d "index" = .int n)
    (hx : dHas d "x" = false) :
    normalizeSlot (.dict d) = .error (.keyError "x") := by
  unfold normalizeSlot
  dsimp only
  rw [normalizeSlot_idx_ok d hidx]
  dsimp only
  unfold dSubInt
  rw [if_neg (by simpa using hx)]

lemma normalizeSlot_x_none (d : PyDict)
    (hidx : dHas d "index" = false ∨ ∃ n, dGet d "index" = .int n)
    (hxp : dHas d "x" = true) (hx : dGet d "x" = PyVal.none) :
    normalizeSlot (.dict d) = .error (.typeError "int() argument must not be None") := by
  unfold normalizeSlot
  dsimp only
  rw [normalizeSlot_idx_ok d hidx]
  dsimp only
  unfold dSubInt
  rw [if_pos hxp, hx]
  rfl

lemma normalizeSlot_x_list (d : PyDict) (xs : List PyVal)
    (hidx : dHas d "index" = false ∨ ∃ n, dGet d "index" = .int n)
    (hx : dGet d "x" = PyVal.list xs) :
    normalizeSlot (.dict d) = .error (.typeError "int() argument must not be a list") := by
  have hxp : dHas d "x" = true := by
    by_contra hc
    rw [dGet_of_dHas_false d "x" (by simpa using hc)] at hx
    cases hx
  unfold normalizeSlot
  dsimp only
  rw [normalizeSlot_idx_ok d hidx]
  dsimp only
  unfold dSubInt
  rw [if_pos hxp, hx]
  rfl

lemma normalizeSlot_x_badstr (d : PyDict) (t : String)
    (hidx : dHas d "index" = false ∨ ∃ n, dGet d "index" = .int n)
    (hx : dGet d "x" = PyVal.str t) (hbad : t.toInt? = Option.none) :
    normalizeSlot (.dict d) =
      .error (.valueError ("invalid literal for int() with base 10: '" ++ t ++ "'")) := by
  have hxp : dHas d "x" = true := by
    by_contra hc
    rw [dGet_of_dHas_false d "x" (by simpa using hc)] at hx
    cases hx
  unfold normalizeSlot
  dsimp only
  rw [normalizeSlot_idx_ok d hidx]
  dsimp only
  unfold dSubInt
  rw [if_pos hxp, hx]
  unfold pyInt
  dsimp only
  rw [hbad]

lemma normalizeSlot_all_int (d : PyDict) (i x y w h : Int)
    (hi : dGet d "index" = .int i) (hx : dGet d "x" = .int x) (hy : dGet d "y" = .int y)
    (hw : dGet d "w" = .int w) (hh : dGet d "h" = .int h) :
    normalizeSlot (.dict d) =
      .ok (.dict [("index", .int i), ("x", .int x), ("y", .int y), ("w", .int w),
                  ("h", .int h), ("filename", dGet d "filename")]) := by
  unfold normalizeSlot
  dsimp only
  rw [normalizeSlot_idx_ok d (Or.inr ⟨i, hi⟩)]
  rw [if_pos (dHas_of_dGet_int d "index" i hi), hi]
  dsimp only
  unfold dSubInt
  rw [if_pos (dHas_of_dGet_int d "x" x hx), hx,
      if_pos (dHas_of_dGet_int d "y" y hy), hy,
      if_pos (dHas_of_dGet_int d "w" w hw), hw,
      if_pos (dHas_of_dGet_int d "h" h hh), hh]
  rfl

lemma normalizeSlot_nondict (v : PyVal) (h : ∀ d, v ≠ .dict d) :
    normalizeSlot v = .error (.typeError "slot entry does not support string subscripts") := by
  cases v with
  | dict d => exact absurd rfl (h d)
  | int n => rfl
  | str t => rfl
  | none => rfl
  | list l => rfl

lemma dHas_of_dGet_ne_none (d : PyDict) (k : String) (h : dGet d k ≠ .none) :
    dHas d k = true := by
  by_contra hc
  rw [dGet_of_dHas_false d k (by simpa using hc)] at h
  exact h rfl

lemma load_config_explicit (rd : PyDict) (sl : List PyVal)
    (h : dGet rd "slots" = .list sl) :
    load_config (.parsed (.dict rd)) = loadExplicit rd sl := by
  unfold load_config
  dsimp only
  rw [if_pos (dHas_of_dGet_ne_none rd "slots" (by simp [h])), h]

lemma normalizeSlots_cons_err (s : PyVal) (rest : List PyVal) (e : PyErr)
    (h : normalizeSlot s = .error e) : normalizeSlots (s :: rest) = .error e := by
  unfold normalizeSlots
  rw [h]

lemma loadExplicit_err (rd : PyDict) (sl : List PyVal) (e : PyErr)
    (h : normalizeSlots sl = .error e) : loadExplicit rd sl = .error e := by
  unfold loadExplicit
  rw [h]

/-- C8 counterexample: in explicit mode a slot entry lacking the required `x`
field makes `load_config` raise `KeyError`, which `main` reports as an
unexpected/internal error, not as a configuration error. -/
theorem c8_missing_field_counterexample :
    load_config (ConfigDoc.parsed (.dict [("slots", .list
      [.dict [("index", .int 1), ("y", .int 0), ("w", .int 1), ("h", .int 1)]])])) =
      .error (.keyError "x") ∧
    classifyErr (.keyError "x") = .unexpected ∧
    ErrClass.unexpected ≠ ErrClass.config :=
  ⟨rfl, rfl, by decide⟩

/-- C8 (amended): explicit-mode normalization copies each slot entry field by
field with `index,x,y,w,h` coerced to integers, but its failure modes differ
by field and value kind: a missing `x,y,w,h` raises `KeyError` and a
non-numeric non-string value raises `TypeError`, both reported as unexpected
errors; only a non-numeric string raises `ValueError`, reported as a config
error; a missing `index` is normalized to `None` and later rejected by the
validator as a config error; a missing `filename` is passed through as absent
without error. -/
theorem c8_explicit_mode_errors :
    (∀ (rd : PyDict) (sl : List PyVal), dGet rd "slots" = .list sl →
        load_config (.parsed (.dict rd)) = loadExplicit rd sl) ∧
    (∀ (s : PyVal) (rest : List PyVal) (e : PyErr), normalizeSlot s = .error e →
        normalizeSlots (s :: rest) = .error e) ∧
    (∀ (rd : PyDict) (sl : List PyVal) (e : PyErr), normalizeSlots sl = .error e →
        loadExplicit rd sl = .error e) ∧
    (∀ d : PyDict, (dHas d "index" = false ∨ ∃ n, dGet d "index" = .int n) →
        dHas d "x" = false → normalizeSlot (.dict d) = .error (.keyError "x")) ∧
    (∀ d : PyDict, (dHas d "index" = false ∨ ∃ n, dGet d "index" = .int n) →
        dHas d "x" = true → dGet d "x" = PyVal.none →
        normalizeSlot (.dict d) = .error (.typeError "int() argument must not be None")) ∧
    (∀ (d : PyDict) (xs : List PyVal), (dHas d "index" = false ∨ ∃ n, dGet d "index" = .int n) →
        dGet d "x" = PyVal.list xs →
        normalizeSlot (.dict d) = .error (.typeError "int() argument must not be a list")) ∧
    (∀ (d : PyDict) (t : String), (dHas d "index" = false ∨ ∃ n, dGet d "index" = .int n) →
        dGet d "x" = PyVal.str t → t.toInt? = Option.none →
        normalizeSlot (.dict d) =
          .error (.valueError ("invalid literal for int() with base 10: '" ++ t ++ "'"))) ∧
    (∀ (d : PyDict) (i x y w h : Int), dGet d "index" = .int i → dGet d "x" = .int x →
        dGet d "y" = .int y → dGet d "w" = .int w → dGet d "h" = .int h →
        normalizeSlot (.dict d) =
          .ok (.dict [("index", .int i), ("x", .int x), ("y", .int y), ("w", .int w),
                      ("h", .int h), ("filename", dGet d "filename")])) ∧
    (∀ v : PyVal, (∀ d, v ≠ .dict d) →
        normalizeSlot v = .error (.typeError "slot entry does not support string subscripts")) ∧
    (∀ k, classifyErr (.keyError k) = .unexpected) ∧
    (∀ m, classifyErr (.typeError m) = .unexpected) ∧
    (∀ m, classifyErr (.valueError m) = .config) ∧
    load_config (ConfigDoc.parsed (.dict [("slots", .list
      [.dict [("x", .int 0), ("y", .int 0), ("w", .int 1), ("h", .int 1)]])])) =
      .error (.valueError msgIndex) ∧
    classifyErr (.valueError msgIndex) = .config :=
  ⟨load_config_explicit, normalizeSlots_cons_err, loadExplicit_err, normalizeSlot_missing_x,
   normalizeSlot_x_none, normalizeSlot_x_list, normalizeSlot_x_badstr, normalizeSlot_all_int,
   normalizeSlot_nondict, fun _ => rfl, fun _ => rfl, fun _ => rfl, rfl, rfl⟩

/-- Witness for C8's amended theorem: a slot entry with only an integer index
and no `x` raises `KeyError "x"`. -/
theorem c8_explicit_mode_errors_witness :
    normalizeSlot (.dict [("index", .int 1)]) = .error (.keyError "x") :=
  c8_explicit_mode_errors.2.2.2.1 [("index", .int 1)] (Or.inr ⟨1, rfl⟩) (by decide)

-- --- Images and the compositor's fit rule ------------------------------------

/-- An RGBA pixel buffer as a total pixel map with nominal dimensions; the
pixel type is abstract, since no claim depends on colour arithmetic. -/
structure Img (P : Type) where
  w : Int
  h : Int
  pix : Int → Int → P

/-- External graphics collaborators: the transparent pixel, alpha-masked paste
blending, and the resampling primitive (`Image.resize` with LANCZOS), whose
internal numerics the source treats as an external primitive. -/
structure Gfx (P : Type) where
  transparent : P
  blend : P → P → P
  resample : Img P → Int → Int → Img P

/-- PIL `img.crop((l, t, r, b))`. -/
def cropImg {P : Type} (img : Img P) (l t r b : Int) : Img P :=
  ⟨r - l, b - t, fun i j => img.pix (l + i) (t + j)⟩

/-- PIL `canvas.paste(im, (x, y), im)`: inside the pasted rectangle the result
blends through the paste mask, elsewhere the canvas persists. -/
def pasteImg {P : Type} (g : Gfx P) (canvas : Img P) (im : Img P) (x y : Int) : Img P :=
  ⟨canvas.w, canvas.h, fun i j =>
    if x ≤ i ∧ i < x + im.w ∧ y ≤ j ∧ j < y + im.h then
      g.blend (canvas.pix i j) (im.pix (i - x) (j - y))
    else canvas.pix i j⟩

/-- Python 3 `round` to an integer: nearest, ties to even.  Python's float
arithmetic is modelled exactly over `ℚ`. -/
def pyRound (q : ℚ) : Int :=
  if q - Rat.floor q < 1/2 then Rat.floor q
  else if (1 : ℚ)/2 < q - Rat.floor q then Rat.floor q + 1
  else if Rat.floor q % 2 = 0 then Rat.floor q else Rat.floor q + 1

/-- Python `max(a, b)` on two numbers: the second only when strictly
greater. -/
def pyMax (a b : ℚ) : ℚ := if a < b then b else a

lemma le_pyMax_left (a b : ℚ) : a ≤ pyMax a b := by
  unfold pyMax
  split_ifs with h
  · exact le_of_lt h
  · exact le_refl a

lemma le_pyMax_right (a b : ℚ) : b ≤ pyMax a b := by
  unfold pyMax
  split_ifs with h
  · exact le_refl b
  · exact le_of_not_lt h

/-- The geometry of the resize-to-cover + center-crop rule from `build_atlas`:
scale, rounded resize target, and the crop offsets (Python `//` is floor
division). -/
def fitGeometry (w_slot h_slot w_img h_img : Int) : Int × Int × Int × Int :=
  let scale : ℚ := pyMax ((w_slot : ℚ) / (w_img : ℚ)) ((h_slot : ℚ) / (h_img : ℚ))
  let new_w := pyRound ((w_img : ℚ) * scale)
  let new_h := pyRound ((h_img : ℚ) * scale)
  (new_w, new_h, (new_w - w_slot).fdiv 2, (new_h - h_slot).fdiv 2)

/-- The per-slot fit step of `build_atlas`: resize to the rounded cover size,
then crop the centered `w_slot × h_slot` window. -/
def fitCover {P : Type} (g : Gfx P) (w_slot h_slot : Int) (img : Img P) : Img P :=
  match fitGeometry w_slot h_slot img.w img.h with
  | (new_w, new_h, left, top) =>
      cropImg (g.resample img new_w new_h) left top (left + w_slot) (top + h_slot)

lemma pyRound_ge_int (n : Int) (q : ℚ) (h : (n : ℚ) ≤ q) : n ≤ pyRound q := by
  have hf : n ≤ Rat.floor q := Rat.le_floor.2 h
  unfold pyRound
  split_ifs <;> omega

lemma fitGeometry_cover (w_slot h_slot w_img h_img : Int)
    (hwi : 0 < w_img) (hhi : 0 < h_img) :
    w_slot ≤ (fitGeometry w_slot h_slot w_img h_img).1 ∧
    h_slot ≤ (fitGeometry w_slot h_slot w_img h_img).2.1 := by
  unfold fitGeometry
  dsimp only
  constructor
  · apply pyRound_ge_int
    have h1 : (w_slot : ℚ) / (w_img : ℚ) ≤ pyMax ((w_slot : ℚ) / w_img) ((h_slot : ℚ) / h_img) :=
      le_pyMax_left _ _
    have h2 : (0 : ℚ) < (w_img : ℚ) := by exact_mod_cast hwi
    calc (w_slot : ℚ) = (w_img : ℚ) * ((w_slot : ℚ) / (w_img : ℚ)) := by
            field_simp
      _ ≤ (w_img : ℚ) * pyMax ((w_slot : ℚ) / w_img) ((h_slot : ℚ) / h_img) := by
            exact mul_le_mul_of_nonneg_left h1 (le_of_lt h2)
  · apply pyRound_ge_int
    have h1 : (h_slot : ℚ) / (h_img : ℚ) ≤ pyMax ((w_slot : ℚ) / w_img) ((h_slot : ℚ) / h_img) :=
      le_pyMax_right _ _
    have h2 : (0 : ℚ) < (h_img : ℚ) := by exact_mod_cast hhi
    calc (h_slot : ℚ) = (h_img : ℚ) * ((h_slot : ℚ) / (h_img : ℚ)) := by
            field_simp
      _ ≤ (h_img : ℚ) * pyMax ((w_slot : ℚ) / w_img) ((h_slot : ℚ) / h_img) := by
            exact mul_le_mul_of_nonneg_left h1 (le_of_lt h2)

lemma ratFloor_eq_intFloor (q : ℚ) : Rat.floor q = ⌊q⌋ := by
  rw [Rat.floor_def, Rat.floor_def']

lemma pyRound_intCast (n : Int) : pyRound ((n : ℚ)) = n := by
  unfold pyRound
  rw [ratFloor_eq_intFloor, Int.floor_intCast, sub_self]
  norm_num

/-- The fit geometry the code actually computes for a 100×200 image in a
50×50 slot: scale 1/2, resized 50×100, crop offsets (0, 25). -/
lemma fitGeometry_100_200 : fitGeometry 50 50 100 200 = (50, 100, 0, 25) := by
  unfold fitGeometry pyMax
  rw [if_neg (by norm_num)]
  dsimp only
  have h1 : ((100 : Int) : ℚ) * (((50 : Int) : ℚ) / ((100 : Int) : ℚ)) = ((50 : Int) : ℚ) := by
    norm_num
  have h2 : ((200 : Int) : ℚ) * (((50 : Int) : ℚ) / ((100 : Int) : ℚ)) = ((100 : Int) : ℚ) := by
    norm_num
  rw [h1, h2, pyRound_intCast, pyRound_intCast]
  decide

/-- C6 counterexample: for a 100×200 source and a 50×50 slot the code's scale
is `max(50/100, 50/200) = 1/2`, not `1.0`: the resize target is 50×100 with
crop offsets (0, 25), not 100×200 with offsets (25, 75) as claimed. -/
theorem c6_fit_counterexample :
    fitGeometry 50 50 100 200 = (50, 100, 0, 25) ∧
    fitGeometry 50 50 100 200 ≠ (100, 200, 25, 75) :=
  ⟨fitGeometry_100_200, by rw [fitGeometry_100_200]; decide⟩

/-- C6 (amended): the fit rule computes `scale = max(slot.w/img.w,
slot.h/img.h)`, resizes to the rounded cover size — which is at least as large
as the slot in both dimensions whenever the image dimensions are positive —
and crops the `slot.w × slot.h` window at floor-division-centred offsets, so
the output pixel `(i,j)` is the resampled image's pixel `(left+i, top+j)`;
for a 100×200 source and a 50×50 slot the scale is 1/2, the resize target is
50×100 and the crop offsets are (0, 25). -/
theorem c6_fit_rule :
    (∀ w_slot h_slot w_img h_img : Int, 0 < w_img → 0 < h_img →
        w_slot ≤ (fitGeometry w_slot h_slot w_img h_img).1 ∧
        h_slot ≤ (fitGeometry w_slot h_slot w_img h_img).2.1) ∧
    (∀ (P : Type) (g : Gfx P) (w_slot h_slot : Int) (img : Img P),
        (fitCover g w_slot h_slot img).w = w_slot ∧
        (fitCover g w_slot h_slot img).h = h_slot ∧
        ∀ i j : Int, (fitCover g w_slot h_slot img).pix i j =
          (g.resample img (fitGeometry w_slot h_slot img.w img.h).1
            (fitGeometry w_slot h_slot img.w img.h).2.1).pix
            ((fitGeometry w_slot h_slot img.w img.h).2.2.1 + i)
            ((fitGeometry w_slot h_slot img.w img.h).2.2.2 + j)) ∧
    fitGeometry 50 50 100 200 = (50, 100, 0, 25) := by
  refine ⟨fun ws hs wi hi hwi hhi => fitGeometry_cover ws hs wi hi hwi hhi, ?_,
    fitGeometry_100_200⟩
  intro P g ws hs img
  unfold fitCover
  rcases hg : fitGeometry ws hs img.w img.h with ⟨nw, nh, l, t⟩
  unfold cropImg
  dsimp only
  refine ⟨by omega, by omega, fun i j => rfl⟩

/-- Witness for C6's amended theorem: cover holds at the 100×200 / 50×50
instance. -/
theorem c6_fit_rule_witness :
    50 ≤ (fitGeometry 50 50 100 200).1 ∧ 50 ≤ (fitGeometry 50 50 100 200).2.1 :=
  c6_fit_rule.1 50 50 100 200 (by decide) (by decide)

-- --- Folders and the atlas compositor ----------------------------------------

/-- An image file on disk: decodable, or present but corrupt (opening fails,
`safe_open_image` returns `None`). -/
inductive FileData (P : Type) where
  | image (img : Img P)
  | corrupt

/-- One atlas source folder: the state of its `config.json` and its image
files by name (paths are folder-relative in the model). -/
structure Folder (P : Type) where
  config : ConfigDoc
  files : List (String × FileData P)

def findFile {P : Type} : List (String × FileData P) → String → Option (FileData P)
  | [], _ => Option.none
  | (k, v) :: rest, n => if k = n then some v else findFile rest n

/-- The filename resolution line of `build_atlas`:
`slot.get("filename") or f"{idx}.png"`. -/
def slotFilenameVal (sd : PyDict) (idx : Int) : PyVal :=
  pyOr (dGet sd "filename") (.str (intStr idx ++ ".png"))

/-- Source-image resolution for one slot (the `os.path.isfile` chain of
`build_atlas`): the slot's own file wins; a corrupt file is fatal; otherwise
an independent copy of the placeholder; otherwise a transparent slot with a
warning. -/
def resolveSlot {P : Type} (files : List (String × FileData P))
    (placeholder : Option (Img P)) (atlas_name : String) (idx : Int) (filename : String) :
    Except PyErr (Option (Img P) × Option String × List String) :=
  match findFile files filename with
  | some (.image im) => .ok (some im, some filename, [])
  | some .corrupt =>
      .error (.runtimeError ("Failed opening '" ++ filename ++ "' for atlas '" ++
        atlas_name ++ "'."))
  | Option.none =>
      match placeholder with
      | some ph => .ok (some ph, some "placeholder.png", [])
      | Option.none =>
          .ok (Option.none, Option.none,
            ["Atlas '" ++ atlas_name ++ "': missing '" ++ filename ++
             "' and no placeholder -> leaving transparent slot " ++ intStr idx ++ "."])

/-- One manifest entry `{x, y, w, h, source}`. -/
structure MapEntry where
  x : Int
  y : Int
  w : Int
  h : Int
  source : Option String
deriving Repr, DecidableEq

/-- Fit and paste the resolved image, when there is one. -/
def paintSlot {P : Type} (g : Gfx P) (canvas : Img P) (sd : PyDict)
    (imO : Option (Img P)) : Except PyErr (Img P) :=
  match imO with
  | Option.none => .ok canvas
  | some im =>
      match pyInt (dGet sd "w") with
      | .error e => .error e
      | .ok w_slot =>
          match pyInt (dGet sd "h") with
          | .error e => .error e
          | .ok h_slot =>
              match pyInt (dGet sd "x") with
              | .error e => .error e
              | .ok px =>
                  match pyInt (dGet sd "y") with
                  | .error e => .error e
                  | .ok py => .ok (pasteImg g canvas (fitCover g w_slot h_slot im) px py)

/-- The manifest entry written for a slot regardless of outcome. -/
def slotEntry (sd : PyDict) (sourceUsed : Option String) : Except PyErr MapEntry :=
  match pyInt (dGet sd "x"), pyInt (dGet sd "y"), pyInt (dGet sd "w"), pyInt (dGet sd "h") with
  | .ok x, .ok y, .ok w, .ok h => .ok ⟨x, y, w, h, sourceUsed⟩
  | .error e, _, _, _ => .error e
  | _, .error e, _, _ => .error e
  | _, _, .error e, _ => .error e
  | _, _, _, .error e => .error e

/-- The body of the per-slot loop of `build_atlas`. -/
def processSlot {P : Type} (g : Gfx P) (files : List (String × FileData P))
    (placeholder : Option (Img P)) (atlas_name : String) (canvas : Img P) (slot : PyVal) :
    Except PyErr (Img P × (String × MapEntry) × List String) :=
  match slot with
  | .dict sd =>
      match pyInt (dGet sd "index") with
      | .error e => .error e
      | .ok idx =>
          if is_safe_filename (slotFilenameVal sd idx) then
            match slotFilenameVal sd idx with
            | .str filename =>
                match resolveSlot files placeholder atlas_name idx filename with
                | .error e => .error e
                | .ok (imO, sourceUsed, warns) =>
                    match paintSlot g canvas sd imO with
                    | .error e => .error e
                    | .ok canvasP =>
                        match slotEntry sd sourceUsed with
                        | .error e => .error e
                        | .ok entry => .ok (canvasP, (intStr idx, entry), warns)
            | _ => .error (.typeError "unreachable: a safe filename is a string")
          else
            .error (.valueError ("unsafe filename '" ++ pyStrV (slotFilenameVal sd idx) ++
              "' in atlas '" ++ atlas_name ++ "' slot " ++ intStr idx))
  | _ => .error (.typeError "slot entry does not support string subscripts")

/-- The per-slot loop of `build_atlas` over the sorted slots. -/
def buildSlots {P : Type} (g : Gfx P) (files : List (String × FileData P))
    (placeholder : Option (Img P)) (atlas_name : String) :
    Img P → List PyVal → Except PyErr (Img P × List (String × MapEntry) × List String)
  | canvas, [] => .ok (canvas, [], [])
  | canvas, slot :: rest =>
      match processSlot g files placeholder atlas_name canvas slot with
      | .error e => .error e
      | .ok (canvasN, entry, warns) =>
          match buildSlots g files placeholder atlas_name canvasN rest with
          | .error e => .error e
          | .ok (canvasF, entries, warnsRest) =>
              .ok (canvasF, entry :: entries, warns ++ warnsRest)

/-- Stable insertion into a list sorted ascending by the integer key. -/
def insertByKey {α : Type} (p : Int × α) : List (Int × α) → List (Int × α)
  | [] => [p]
  | q :: rest => if q.1 < p.1 then q :: insertByKey p rest else p :: q :: rest

/-- Stable sort by integer key (Python `sorted` with an integer key). -/
def sortByKey {α : Type} : List (Int × α) → List (Int × α)
  | [] => []
  | p :: rest => insertByKey p (sortByKey rest)

/-- Key extraction pass of `sorted(cfg["slots"], key=lambda s: int(s["index"]))`:
Python computes every key before comparing. -/
def keyedSlots : List PyVal → Except PyErr (List (Int × PyVal))
  | [] => .ok []
  | s :: rest =>
      match (match s with
             | .dict sd => pyInt (dGet sd "index")
             | _ => .error (.typeError "slot entry does not support string subscripts") :
             Except PyErr Int) with
      | .error e => .error e
      | .ok k =>
          match keyedSlots rest with
          | .error e => .error e
          | .ok ks => .ok ((k, s) :: ks)

def sortSlotsByIndex (slots : List PyVal) : Except PyErr (List PyVal) :=
  match keyedSlots slots with
  | .error e => .error e
  | .ok ks => .ok ((sortByKey ks).map Prod.snd)

/-- The full output of one atlas build: the composed canvas plus the manifest
content `{name, width, height, slots}` and the warnings emitted. -/
structure AtlasOutput (P : Type) where
  name : String
  width : Int
  height : Int
  canvas : Img P
  mapping : List (String × MapEntry)
  warnings : List String

/-- `build_atlas` from the source: load and validate the config, open the
placeholder once (fatal if corrupt), sort slots by index, run the slot loop
on a fresh transparent canvas. -/
def build_atlas {P : Type} (g : Gfx P) (atlas_name : String) (fl : Folder P) :
    Except PyErr (AtlasOutput P) :=
  match load_config fl.config with
  | .error e => .error e
  | .ok cfg =>
      match dGet cfg "canvas_width", dGet cfg "canvas_height" with
      | .int canvas_w, .int canvas_h =>
          match (match findFile fl.files "placeholder.png" with
                 | some (.image im) => .ok (some im)
                 | some .corrupt =>
                     .error (.runtimeError
                       ("placeholder.png present but could not be opened in '" ++
                        atlas_name ++ "'"))
                 | Option.none => .ok Option.none : Except PyErr (Option (Img P))) with
          | .error e => .error e
          | .ok placeholder =>
              match dGet cfg "slots" with
              | .list ss =>
                  match sortSlotsByIndex ss with
                  | .error e => .error e
                  | .ok sortedSlots =>
                      match buildSlots g fl.files placeholder atlas_name
                        ⟨canvas_w, canvas_h, fun _ _ => g.transparent⟩ sortedSlots with
                      | .error e => .error e
                      | .ok (canvasF, mapping, warns) =>
                          .ok ⟨atlas_name, canvas_w, canvas_h, canvasF, mapping, warns⟩
              | _ => .error (.typeError "unreachable: normalized slots form a list")
      | _, _ => .error (.typeError "unreachable: normalized canvas dimensions are integers")

-- --- The orchestrator ---------------------------------------------------------

/-- Lexicographic order on byte sequences (how Python compares `bytes`). -/
def bytesLe : List UInt8 → List UInt8 → Bool
  | [], _ => true
  | _ :: _, [] => false
  | a :: as, b :: bs => if a < b then true else if b < a then false else bytesLe as bs

/-- The UTF-8 encoding of a string as a byte list (the payload of
`String.toUTF8`, i.e. Python `x.encode('utf-8')`). -/
def strBytes (s : String) : List UInt8 := s.data.flatMap String.utf8EncodeChar

/-- The folder order of `main`: `sorted(..., key=lambda x: x.encode('utf-8'))`,
i.e. ascending raw UTF-8 byte sequences. -/
def nameLe (a b : String) : Bool := bytesLe (strBytes a) (strBytes b)

def insertFolder {P : Type} (p : String × Folder P) :
    List (String × Folder P) → List (String × Folder P)
  | [] => [p]
  | q :: rest => if nameLe p.1 q.1 then p :: q :: rest else q :: insertFolder p rest

/-- Stable sort of the discovered folders by name bytes. -/
def sortFolders {P : Type} : List (String × Folder P) → List (String × Folder P)
  | [] => []
  | p :: rest => insertFolder p (sortFolders rest)

/-- The filesystem state `main` observes: whether `atlases_src` exists, and
the per-atlas folders in it. -/
structure World (P : Type) where
  srcExists : Bool
  folders : List (String × Folder P)

def isOkB {ε α : Type} : Except ε α → Bool
  | .ok _ => true
  | .error _ => false

/-- The `for name in atlas_folders` loop of `main`: build each folder in
order, exiting 1 at the first failure without touching the rest; returns the
exit code and the successfully built folder names in order. -/
def runFolders {P : Type} (g : Gfx P) : List (String × Folder P) → Int × List String
  | [] => (0, [])
  | (n, fl) :: rest =>
      match build_atlas g n fl with
      | .error _ => (1, [])
      | .ok _ =>
          match runFolders g rest with
          | (code, built) => (code, n :: built)

/-- `main` from the source: missing source root exits 1; no folders is a
successful no-op; otherwise the fail-fast loop over the byte-sorted folders. -/
def mainRun {P : Type} (g : Gfx P) (w : World P) : Int × List String :=
  if w.srcExists = false then (1, [])
  else if (sortFolders w.folders).isEmpty then (0, [])
  else runFolders g (sortFolders w.folders)

lemma runFolders_exit {P : Type} (g : Gfx P) (l : List (String × Folder P)) :
    (runFolders g l).1 = 0 ↔ ∀ p ∈ l, isOkB (build_atlas g p.1 p.2) = true := by
  induction l with
  | nil => simp [runFolders]
  | cons p rest ih =>
      obtain ⟨n, fl⟩ := p
      unfold runFolders
      cases hb : build_atlas g n fl with
      | error e => simp [isOkB, hb]
      | ok out =>
          cases hr : runFolders g rest with
          | mk code built =>
              rw [hr] at ih
              simp only [isOkB, hb, List.mem_cons]
              constructor
              · intro hc q hq
                rcases hq with rfl | hq
                · simp [isOkB, hb]
                · exact ih.1 hc q hq
              · intro hall
                exact ih.2 fun q hq => hall q (Or.inr hq)

lemma runFolders_built {P : Type} (g : Gfx P) (l : List (String × Folder P)) :
    (runFolders g l).2 =
      (l.takeWhile (fun p => isOkB (build_atlas g p.1 p.2))).map Prod.fst := by
  induction l with
  | nil => simp [runFolders]
  | cons p rest ih =>
      obtain ⟨n, fl⟩ := p
      unfold runFolders
      cases hb : build_atlas g n fl with
      | error e => simp [List.takeWhile_cons, isOkB, hb]
      | ok out =>
          cases hr : runFolders g rest with
          | mk code built =>
              rw [hr] at ih
              simp only [List.takeWhile_cons]
              rw [if_pos (by simp [isOkB, hb])]
              simpa using ih

lemma runFolders_failfast {P : Type} (g : Gfx P) (pre : List (String × Folder P))
    (p : String × Folder P) (rest : List (String × Folder P))
    (hpre : ∀ q ∈ pre, isOkB (build_atlas g q.1 q.2) = true)
    (hp : isOkB (build_atlas g p.1 p.2) = false) :
    runFolders g (pre ++ p :: rest) = (1, pre.map Prod.fst) := by
  induction pre with
  | nil =>
      obtain ⟨n, fl⟩ := p
      unfold runFolders
      cases hb : build_atlas g n fl with
      | error e => simp [hb]
      | ok out => simp [isOkB, hb] at hp
  | cons q pre' ih =>
      obtain ⟨n, fl⟩ := q
      rw [List.cons_append]
      unfold runFolders
      cases hb : build_atlas g n fl with
      | error e =>
          have := hpre (n, fl) (List.mem_cons_self _ _)
          simp [isOkB, hb] at this
      | ok out =>
          rw [ih (fun q hq => hpre q (List.mem_cons_of_mem _ hq))]
          rfl

lemma runFolders_exit_cases {P : Type} (g : Gfx P) (l : List (String × Folder P)) :
    (runFolders g l).1 = 0 ∨ (runFolders g l).1 = 1 := by
  induction l with
  | nil => left; rfl
  | cons p rest ih =>
      obtain ⟨n, fl⟩ := p
      unfold runFolders
      cases hb : build_atlas g n fl with
      | error e => right; rfl
      | ok out =>
          cases hr : runFolders g rest with
          | mk code built => rw [hr] at ih; exact ih

/-- A trivial pixel model and graphics collaborator for concrete runs. -/
def unitGfx : Gfx Unit := ⟨(), fun _ b => b, fun im _ _ => im⟩

/-- A folder whose one-slot config builds successfully (missing source file,
no placeholder: transparent slot plus a warning). -/
def folderOkU : Folder Unit :=
  ⟨ConfigDoc.parsed (.dict [("slots", .list [.dict [("index", .int 1), ("x", .int 0),
    ("y", .int 0), ("w", .int 1), ("h", .int 1)]])]), []⟩

/-- A folder whose config document cannot be parsed. -/
def folderBadU : Folder Unit := ⟨ConfigDoc.unparsable "Expecting value", []⟩

/-- C2: `main` exits 0 iff the source root exists and every discovered folder
builds (including the zero-folder no-op); the exit code is always 0 or 1; the
folders actually built are exactly the prefix before the first failure, and
the loop's result is independent of everything after the first failing
folder. -/
theorem c2_exit_contract :
    (∀ (P : Type) (g : Gfx P) (w : World P),
        (mainRun g w).1 = 0 ↔
          (w.srcExists = true ∧
           ∀ p ∈ sortFolders w.folders, isOkB (build_atlas g p.1 p.2) = true)) ∧
    (∀ (P : Type) (g : Gfx P) (w : World P),
        (mainRun g w).1 = 0 ∨ (mainRun g w).1 = 1) ∧
    (∀ (P : Type) (g : Gfx P) (w : World P), w.srcExists = true →
        (mainRun g w).2 =
          ((sortFolders w.folders).takeWhile
            (fun p => isOkB (build_atlas g p.1 p.2))).map Prod.fst) ∧
    (∀ (P : Type) (g : Gfx P) (pre : List (String × Folder P))
        (p : String × Folder P) (rest : List (String × Folder P)),
        (∀ q ∈ pre, isOkB (build_atlas g q.1 q.2) = true) →
        isOkB (build_atlas g p.1 p.2) = false →
        runFolders g (pre ++ p :: rest) = (1, pre.map Prod.fst)) := by
  refine ⟨?_, ?_, ?_, fun P g => runFolders_failfast g⟩
  · intro P g w
    unfold mainRun
    cases hsrc : w.srcExists with
    | false =>
        simp only [if_pos rfl]
        constructor
        · intro h; cases h
        · rintro ⟨h, -⟩; cases h
    | true =>
        rw [if_neg (by simp)]
        by_cases hemp : (sortFolders w.folders).isEmpty
        · rw [if_pos hemp]
          simp only [List.isEmpty_iff] at hemp
          rw [hemp]
          simp
        · rw [if_neg hemp]
          rw [runFolders_exit]
          simp
  · intro P g w
    unfold mainRun
    split_ifs
    · right; rfl
    · left; rfl
    · exact runFolders_exit_cases g _
  · intro P g w hsrc
    unfold mainRun
    rw [if_neg (by simp [hsrc])]
    by_cases hemp : (sortFolders w.folders).isEmpty
    · rw [if_pos hemp]
      simp only [List.isEmpty_iff] at hemp
      rw [hemp]
      rfl
    · rw [if_neg hemp]
      exact runFolders_built g _

/-- Witness for C2: a three-folder run whose second folder has an unparsable
config stops after the first folder. -/
theorem c2_exit_contract_witness :
    runFolders unitGfx [("a", folderOkU), ("b", folderBadU), ("c", folderOkU)] =
      (1, ["a"]) :=
  c2_exit_contract.2.2.2 Unit unitGfx [("a", folderOkU)] ("b", folderBadU)
    [("c", folderOkU)]
    (fun q hq => by rcases List.mem_singleton.1 hq with rfl; rfl)
    (by rfl)

-- --- Folder ordering ----------------------------------------------------------

lemma bytesLe_total : ∀ a b : List UInt8, bytesLe a b = true ∨ bytesLe b a = true := by
  intro a
  induction a with
  | nil => intro b; left; rfl
  | cons x xs ih =>
      intro b
      cases b with
      | nil => right; rfl
      | cons y ys =>
          unfold bytesLe
          by_cases h1 : x < y
          · left; rw [if_pos h1]
          · by_cases h2 : y < x
            · right; rw [if_pos h2]
            · rw [if_neg h1, if_neg h2, if_neg h2, if_neg h1]
              exact ih ys

lemma nameLe_total (a b : String) : nameLe a b = true ∨ nameLe b a = true :=
  bytesLe_total (strBytes a) (strBytes b)

lemma insertFolder_chain {P : Type} (p : String × Folder P)
    (l : List (String × Folder P))
    (h : List.Chain' (fun a b => nameLe a.1 b.1 = true) l) :
    List.Chain' (fun a b => nameLe a.1 b.1 = true) (insertFolder p l) := by
  induction l with
  | nil => simp [insertFolder]
  | cons q rest ih =>
      unfold insertFolder
      by_cases hle : nameLe p.1 q.1 = true
      · rw [if_pos hle]
        exact (List.chain'_cons).2 ⟨hle, h⟩
      · rw [if_neg hle]
        rw [List.chain'_cons'] at h
        have hqp : nameLe q.1 p.1 = true := (nameLe_total p.1 q.1).resolve_left hle
        rw [List.chain'_cons']
        refine ⟨?_, ih h.2⟩
        intro r hr
        cases rest with
        | nil =>
            simp [insertFolder] at hr
            rw [← hr]
            exact hqp
        | cons s rest' =>
            unfold insertFolder at hr
            by_cases hps : nameLe p.1 s.1 = true
            · rw [if_pos hps] at hr
              simp at hr
              rw [← hr]
              exact hqp
            · rw [if_neg hps] at hr
              simp at hr
              rw [← hr]
              exact h.1 s rfl

lemma sortFolders_chain {P : Type} (l : List (String × Folder P)) :
    List.Chain' (fun a b => nameLe a.1 b.1 = true) (sortFolders l) := by
  induction l with
  | nil => simp [sortFolders]
  | cons p rest ih => exact insertFolder_chain p (sortFolders rest) ih

lemma insertFolder_perm {P : Type} (p : String × Folder P)
    (l : List (String × Folder P)) : List.Perm (insertFolder p l) (p :: l) := by
  induction l with
  | nil => exact List.Perm.refl _
  | cons q rest ih =>
      unfold insertFolder
      by_cases hle : nameLe p.1 q.1 = true
      · rw [if_pos hle]
      · rw [if_neg hle]
        exact List.Perm.trans (List.Perm.cons q ih) (List.Perm.swap p q rest)

lemma sortFolders_perm {P : Type} (l : List (String × Folder P)) :
    List.Perm (sortFolders l) l := by
  induction l with
  | nil => exact List.Perm.refl _
  | cons p rest ih =>
      exact List.Perm.trans (insertFolder_perm p (sortFolders rest)) (List.Perm.cons p ih)

lemma takeWhile_all {α : Type} (p : α → Bool) (l : List α) (h : ∀ a ∈ l, p a = true) :
    l.takeWhile p = l := by
  induction l with
  | nil => rfl
  | cons a rest ih =>
      rw [List.takeWhile_cons, if_pos (h a (List.mem_cons_self a rest))]
      rw [ih fun b hb => h b (List.mem_cons_of_mem a hb)]

/-- C9: the orchestrator's folder order is the ascending raw UTF-8 byte
order: the comparison is total, the sorted list is byte-ascending and a
permutation of the discovered folders, the folders `"b"`, `"A"`, `"ä"` sort
as `"A"`, `"b"`, `"ä"`, and on an all-successful run `main` processes (and
reports) exactly the sorted names in that order. -/
theorem c9_folder_byte_order :
    (∀ a b : String, nameLe a b = true ∨ nameLe b a = true) ∧
    (∀ (P : Type) (l : List (String × Folder P)),
        List.Chain' (fun p q => nameLe p.1 q.1 = true) (sortFolders l)) ∧
    (∀ (P : Type) (l : List (String × Folder P)), List.Perm (sortFolders l) l) ∧
    sortFolders [("b", folderOkU), ("A", folderOkU), ("ä", folderOkU)] =
      [("A", folderOkU), ("b", folderOkU), ("ä", folderOkU)] ∧
    (∀ (P : Type) (g : Gfx P) (w : World P), w.srcExists = true →
        (∀ p ∈ sortFolders w.folders, isOkB (build_atlas g p.1 p.2) = true) →
        (mainRun g w).2 = (sortFolders w.folders).map Prod.fst) := by
  refine ⟨nameLe_total, fun P l => sortFolders_chain l, fun P l => sortFolders_perm l,
    by rfl, ?_⟩
  intro P g w hsrc hall
  unfold mainRun
  rw [if_neg (by simp [hsrc])]
  by_cases hemp : (sortFolders w.folders).isEmpty
  · rw [if_pos hemp]
    simp only [List.isEmpty_iff] at hemp
    rw [hemp]
    rfl
  · rw [if_neg hemp]
    rw [runFolders_built, takeWhile_all _ _ hall]

/-- Witness for C9: a single-folder world is processed and reported. -/
theorem c9_folder_byte_order_witness :
    (mainRun unitGfx ⟨true, [("b", folderOkU)]⟩).2 = ["b"] :=
  c9_folder_byte_order.2.2.2.2 Unit unitGfx ⟨true, [("b", folderOkU)]⟩ rfl
    (fun p hp => by rcases List.mem_singleton.1 hp with rfl; rfl)

-- --- Source resolution fixtures and C4 ---------------------------------------

def unitImg : Img Unit := ⟨1, 1, fun _ _ => ()⟩

/-- One-slot config shared by the C4 fixtures. -/
def oneSlotDoc : ConfigDoc :=
  ConfigDoc.parsed (.dict [("slots", .list [.dict [("index", .int 1), ("x", .int 0),
    ("y", .int 0), ("w", .int 1), ("h", .int 1)]])])

/-- The slot's source file exists but cannot be decoded. -/
def folderCorruptU : Folder Unit := ⟨oneSlotDoc, [("1.png", FileData.corrupt)]⟩

/-- No slot source, but a decodable `placeholder.png`. -/
def folderPlaceholderU : Folder Unit :=
  ⟨oneSlotDoc, [("placeholder.png", FileData.image unitImg)]⟩

lemma processSlot_err_of_resolve {P : Type} (g : Gfx P)
    (files : List (String × FileData P)) (ph : Option (Img P)) (an : String)
    (canvas : Img P) (sd : PyDict) (idx : Int) (f : String) (e : PyErr)
    (hidx : pyInt (dGet sd "index") = .ok idx)
    (hf : slotFilenameVal sd idx = .str f)
    (hsafe : is_safe_filename (.str f) = true)
    (hres : resolveSlot files ph an idx f = .error e) :
    processSlot g files ph an canvas (.dict sd) = .error e := by
  unfold processSlot
  dsimp only
  rw [hidx]
  dsimp only
  rw [hf, if_pos hsafe]
  dsimp only
  rw [hres]

/-- C4: per-slot source resolution. (a) an existing decodable file wins and is
recorded as the source; an existing but corrupt file is a fatal error that
aborts the whole atlas; (b) otherwise a loaded placeholder is used with
`source = "placeholder.png"`; (c) otherwise the slot stays transparent with
`source = None` and only a non-fatal warning, and the atlas still builds. -/
theorem c4_source_resolution :
    (∀ (P : Type) (files : List (String × FileData P)) (ph : Option (Img P))
        (an : String) (idx : Int) (fn : String) (im : Img P),
        findFile files fn = some (.image im) →
        resolveSlot files ph an idx fn = .ok (some im, some fn, [])) ∧
    (∀ (P : Type) (files : List (String × FileData P)) (ph : Option (Img P))
        (an : String) (idx : Int) (fn : String),
        findFile files fn = some .corrupt →
        resolveSlot files ph an idx fn =
          .error (.runtimeError ("Failed opening '" ++ fn ++ "' for atlas '" ++
            an ++ "'."))) ∧
    (∀ (P : Type) (files : List (String × FileData P)) (ph : Img P)
        (an : String) (idx : Int) (fn : String),
        findFile files fn = Option.none →
        resolveSlot files (some ph) an idx fn =
          .ok (some ph, some "placeholder.png", [])) ∧
    (∀ (P : Type) (files : List (String × FileData P))
        (an : String) (idx : Int) (fn : String),
        findFile files fn = Option.none →
        resolveSlot files Option.none an idx fn =
          .ok (Option.none, Option.none,
            ["Atlas '" ++ an ++ "': missing '" ++ fn ++
             "' and no placeholder -> leaving transparent slot " ++ intStr idx ++ "."])) ∧
    (∀ (P : Type) (g : Gfx P) (files : List (String × FileData P)) (ph : Option (Img P))
        (an : String) (canvas : Img P) (sd : PyDict) (idx : Int) (f : String) (e : PyErr),
        pyInt (dGet sd "index") = .ok idx →
        slotFilenameVal sd idx = .str f →
        is_safe_filename (.str f) = true →
        resolveSlot files ph an idx f = .error e →
        processSlot g files ph an canvas (.dict sd) = .error e) ∧
    build_atlas unitGfx "T" folderCorruptU =
      .error (.runtimeError "Failed opening '1.png' for atlas 'T'.") ∧
    (∃ out, build_atlas unitGfx "T" folderOkU = .ok out ∧
        out.mapping = [("1", ⟨0, 0, 1, 1, Option.none⟩)] ∧
        out.warnings =
          ["Atlas 'T': missing '1.png' and no placeholder -> leaving transparent slot 1."]) ∧
    (∃ out, build_atlas unitGfx "T" folderPlaceholderU = .ok out ∧
        out.mapping = [("1", ⟨0, 0, 1, 1, some "placeholder.png"⟩)] ∧
        out.warnings = []) := by
  refine ⟨?_, ?_, ?_, ?_, ?_, ?_, ⟨_, rfl, rfl, rfl⟩, ⟨_, rfl, rfl, rfl⟩⟩
  · intro P files ph an idx fn im h
    unfold resolveSlot
    rw [h]
  · intro P files ph an idx fn h
    unfold resolveSlot
    rw [h]
  · intro P files ph an idx fn h
    unfold resolveSlot
    rw [h]
  · intro P files an idx fn h
    unfold resolveSlot
    rw [h]
  · exact fun P => processSlot_err_of_resolve (P := P)
  · rfl

/-- Witness for C4: an existing decodable file resolves to itself. -/
theorem c4_source_resolution_witness :
    resolveSlot [("a.png", FileData.image unitImg)] Option.none "T" 1 "a.png" =
      .ok (some unitImg, some "a.png", []) :=
  c4_source_resolution.1 Unit [("a.png", FileData.image unitImg)] Option.none "T" 1
    "a.png" unitImg (by rfl)

-- --- Default filenames are always safe (C10) ----------------------------------

lemma charOfNat_digit (m : Nat) (hm : m < 10) : (Char.ofNat (48 + m)).toNat = 48 + m := by
  interval_cases m <;> rfl

lemma natDigitsAux_digit (fuel : Nat) :
    ∀ n, n < fuel → ∀ c ∈ natDigitsAux fuel n, 48 ≤ c.toNat ∧ c.toNat ≤ 57 := by
  induction fuel with
  | zero => intro n hn; exact absurd hn (Nat.not_lt_zero n)
  | succ fuel ih =>
      intro n hn c hc
      unfold natDigitsAux at hc
      by_cases h10 : n < 10
      · rw [if_pos h10] at hc
        simp at hc
        rw [hc, charOfNat_digit n h10]
        omega
      · rw [if_neg h10] at hc
        rcases List.mem_append.1 hc with hc | hc
        · exact ih (n / 10) (by omega) c hc
        · simp at hc
          rw [hc, charOfNat_digit (n % 10) (by omega)]
          omega

lemma natDigits_digit (n : Nat) : ∀ c ∈ natDigits n, 48 ≤ c.toNat ∧ c.toNat ≤ 57 :=
  natDigitsAux_digit (n + 1) n (Nat.lt_succ_self n)

lemma natDigits_ne_nil (n : Nat) : natDigits n ≠ [] := by
  unfold natDigits natDigitsAux
  by_cases h10 : n < 10
  · rw [if_pos h10]; simp
  · rw [if_neg h10]; simp

lemma strOccurs_dd_false (l : List Char) (h : ∀ c ∈ l, c ≠ '.') :
    strOccurs "..".toList (l ++ ".png".toList) = false := by
  induction l with
  | nil => decide
  | cons c t ih =>
      simp only [List.cons_append]
      unfold strOccurs
      have hdd : "..".toList = ['.', '.'] := rfl
      have hc : ('.' == c) = false := by
        rw [beq_eq_false_iff_ne]
        exact fun hcontr => h c (List.mem_cons_self c t) hcontr.symm
      rw [hdd, List.isPrefixOf_cons₂, hc]
      simp only [Bool.false_and, Bool.false_or]
      have := ih fun d hd => h d (List.mem_cons_of_mem c hd)
      rw [hdd] at this
      exact this

lemma is_safe_of_parts (s : String) (h1 : s.toList ≠ [])
    (h2 : List.isPrefixOf "/".toList s.toList = false)
    (h2' : List.isPrefixOf "\\".toList s.toList = false)
    (h3 : strOccurs "..".toList s.toList = false)
    (h4 : s.toList.contains '/' = false)
    (h4' : s.toList.contains '\\' = false) :
    is_safe_filename (.str s) = true := by
  unfold is_safe_filename
  dsimp only
  rw [if_neg (by simpa using h1), if_neg (by rw [h2, h2']; simp),
      if_neg (by rw [h3]; simp), if_neg (by rw [h4, h4']; simp)]

/-- The default per-slot filename `f"{idx}.png"` is always safe for a
positive index. -/
lemma default_name_safe (i : Int) (hi : 1 ≤ i) :
    is_safe_filename (.str (intStr i ++ ".png")) = true := by
  unfold intStr
  rw [if_neg (by omega)]
  have hdata : (String.mk (natDigits i.toNat) ++ ".png").toList =
      natDigits i.toNat ++ ".png".toList := String.data_append _ _
  have hdig := natDigits_digit i.toNat
  apply is_safe_of_parts
  · rw [hdata]
    simp [natDigits_ne_nil i.toNat]
  · rw [hdata, Bool.eq_false_iff]
    intro hpre
    have hh := (singleton_isPrefixOf_iff '/' _).1 hpre
    cases hnd : natDigits i.toNat with
    | nil => exact natDigits_ne_nil i.toNat hnd
    | cons c rest =>
        rw [hnd] at hh
        simp at hh
        subst hh
        have hd := hdig _ (by rw [hnd]; exact List.mem_cons_self _ _)
        exact absurd hd.1 (by decide)
  · rw [hdata, Bool.eq_false_iff]
    intro hpre
    have hh := (singleton_isPrefixOf_iff '\\' _).1 hpre
    cases hnd : natDigits i.toNat with
    | nil => exact natDigits_ne_nil i.toNat hnd
    | cons c rest =>
        rw [hnd] at hh
        simp at hh
        subst hh
        have hd := hdig _ (by rw [hnd]; exact List.mem_cons_self _ _)
        exact absurd hd.2 (by decide)
  · rw [hdata]
    apply strOccurs_dd_false
    intro c hc hdot
    have := hdig c hc
    rw [hdot] at this
    exact absurd this.1 (by decide)
  · rw [hdata, Bool.eq_false_iff]
    intro hcont
    have hmem : '/' ∈ natDigits i.toNat ++ ".png".toList := by simpa using hcont
    rcases List.mem_append.1 hmem with hm | hm
    · exact absurd (hdig '/' hm).1 (by decide)
    · exact absurd hm (by decide)
  · rw [hdata, Bool.eq_false_iff]
    intro hcont
    have hmem : '\\' ∈ natDigits i.toNat ++ ".png".toList := by simpa using hcont
    rcases List.mem_append.1 hmem with hm | hm
    · exact absurd (hdig '\\' hm).2 (by decide)
    · exact absurd hm (by decide)

lemma is_safe_imp_str (fv : PyVal) (h : is_safe_filename fv = true) :
    ∃ t : String, fv = .str t ∧ t.toList ≠ [] := by
  cases fv with
  | str s =>
      refine ⟨s, rfl, ?_⟩
      intro hnil
      unfold is_safe_filename at h
      dsimp only at h
      rw [if_pos (by simpa using hnil)] at h
      cases h
  | int n => exact Bool.noConfusion h
  | none => exact Bool.noConfusion h
  | list xs => exact Bool.noConfusion h
  | dict d => exact Bool.noConfusion h

lemma slotOkB_index_filename (cw ch : Int) (sd : PyDict)
    (h : slotOkB cw ch (.dict sd) = true) :
    (∃ i, dGet sd "index" = .int i ∧ 1 ≤ i) ∧
    (dGet sd "filename" = PyVal.none ∨ is_safe_filename (dGet sd "filename") = true) := by
  unfold slotOkB at h
  simp only [Bool.and_eq_true] at h
  obtain ⟨⟨hidx, -⟩, hfn⟩ := h
  constructor
  · cases hi : dGet sd "index" with
    | int i =>
        rw [hi] at hidx
        simp at hidx
        exact ⟨i, rfl, hidx⟩
    | str t => rw [hi] at hidx; cases hidx
    | none => rw [hi] at hidx; cases hidx
    | list xs => rw [hi] at hidx; cases hidx
    | dict d => rw [hi] at hidx; cases hidx
  · cases hf : dGet sd "filename" with
    | none => exact Or.inl rfl
    | int n =>
        rw [hf] at hfn; dsimp only at hfn
        right; exact hfn
    | str t =>
        rw [hf] at hfn; dsimp only at hfn
        right; exact hfn
    | list xs =>
        rw [hf] at hfn; dsimp only at hfn
        right; exact hfn
    | dict d =>
        rw [hf] at hfn; dsimp only at hfn
        right; exact hfn

lemma resolvedFilename_safe (sd : PyDict) (i : Int) (hi : 1 ≤ i)
    (hfn : dGet sd "filename" = PyVal.none ∨ is_safe_filename (dGet sd "filename") = true) :
    is_safe_filename (slotFilenameVal sd i) = true := by
  unfold slotFilenameVal pyOr
  rcases hfn with hfn | hfn
  · rw [hfn]
    rw [if_neg (by simp [pyTruthy])]
    exact default_name_safe i hi
  · obtain ⟨t, ht, htne⟩ := is_safe_imp_str _ hfn
    rw [ht] at hfn ⊢
    rw [if_pos (by
      simp [pyTruthy]
      intro hh
      rw [hh] at htne
      exact htne rfl)]
    exact hfn

lemma specValidB_all_slots (cfg : PyDict) (ss : List PyVal)
    (h : specValidB cfg = true) (hss : dGet cfg "slots" = .list ss) :
    ∀ s ∈ ss, ∃ cw ch, slotOkB cw ch s = true := by
  unfold specValidB at h
  cases hcw : dGet cfg "canvas_width" with
  | int cw =>
      cases hch : dGet cfg "canvas_height" with
      | int ch =>
          rw [hcw, hch, hss] at h
          dsimp only at h
          simp only [Bool.and_eq_true, List.all_eq_true] at h
          intro s hs
          exact ⟨cw, ch, h.1.2 s hs⟩
      | str t => rw [hcw, hch] at h; simp at h
      | none => rw [hcw, hch] at h; simp at h
      | list l => rw [hcw, hch] at h; simp at h
      | dict d => rw [hcw, hch] at h; simp at h
  | str t => rw [hcw] at h; simp at h
  | none => rw [hcw] at h; simp at h
  | list l => rw [hcw] at h; simp at h
  | dict d => rw [hcw] at h; simp at h

/-- C10: on any config the validator accepts, the compositor's resolved
filename — the slot's own filename when truthy, else the default
`"<index>.png"` (also substituted for an empty-string filename) — passes the
`is_safe_filename` re-check, so the unsafe-filename abort in `build_atlas` is
unreachable on validated configs. -/
theorem c10_resolved_filename_safe :
    (∀ (cfg : PyDict) (ss : List PyVal), validate_slots cfg = .ok () →
        dGet cfg "slots" = .list ss →
        ∀ s ∈ ss, ∀ sd : PyDict, s = .dict sd →
        ∀ i : Int, dGet sd "index" = .int i →
        is_safe_filename (slotFilenameVal sd i) = true) ∧
    (∀ (sd : PyDict) (i : Int), dGet sd "filename" = PyVal.none →
        slotFilenameVal sd i = .str (intStr i ++ ".png")) ∧
    (∀ (sd : PyDict) (i : Int), dGet sd "filename" = .str "" →
        slotFilenameVal sd i = .str (intStr i ++ ".png")) := by
  refine ⟨?_, ?_, ?_⟩
  · intro cfg ss hok hss s hs sd hsd i hidx
    have hspec := (validate_slots_ok_iff cfg).1 hok
    obtain ⟨cw, ch, hsok⟩ := specValidB_all_slots cfg ss hspec hss s hs
    rw [hsd] at hsok
    obtain ⟨⟨i0, hi0, h1⟩, hfn⟩ := slotOkB_index_filename cw ch sd hsok
    rw [hidx] at hi0
    injection hi0 with hii
    subst hii
    exact resolvedFilename_safe sd i h1 hfn
  · intro sd i h
    unfold slotFilenameVal pyOr
    rw [h, if_neg (by simp [pyTruthy])]
  · intro sd i h
    unfold slotFilenameVal pyOr
    rw [h, if_neg (by simp [pyTruthy])]

/-- Witness for C10: the one validated test slot resolves to its own safe
filename. -/
theorem c10_resolved_filename_safe_witness :
    is_safe_filename (slotFilenameVal [("index", .int 1), ("x", .int 0), ("y", .int 0),
      ("w", .int 10), ("h", .int 10), ("filename", .str "a.png")] 1) = true :=
  c10_resolved_filename_safe.1 cfgOk [slotA] (by rfl) (by rfl) slotA
    (List.mem_singleton.2 rfl)
    [("index", .int 1), ("x", .int 0), ("y", .int 0), ("w", .int 10), ("h", .int 10),
     ("filename", .str "a.png")] rfl 1 rfl
